import Mathlib

/-!
Verification of the resource-binding and state-transition core of the
DiligentCore rendering engine, shallowly embedded in Lean 4.

The embedding covers:
* the OpenGL pipeline resource signature
  (PipelineResourceSignatureGLImpl.cpp): binding-range classification,
  layout creation, hash calculation and the compatibility comparison;
* the Vulkan pipeline state (PipelineStateVkImpl.cpp): default-signature
  derivation with cross-stage resource merging, SPIR-V byte-code patching
  in the pipeline-layout builder, and the development-build resource-limit
  validation;
* the resource-state transition modes documented in DeviceContext.h.

Helper routines that live in the shared base classes
(PipelineResourceSignatureBase, HashUtils) are not part of the examined
sources; where they are needed they are modelled from the specification
and marked with a doc comment starting with the words Modelled from the
spec.
-/

namespace Diligent

/-- SHADER_RESOURCE_TYPE enumeration (GraphicsTypes.h); the source file
asserts SHADER_RESOURCE_TYPE_LAST == 8, which matches these nine values. -/
inductive SHADER_RESOURCE_TYPE where
  | Unknown
  | ConstantBuffer
  | TextureSRV
  | BufferSRV
  | TextureUAV
  | BufferUAV
  | Sampler
  | InputAttachment
  | AccelStruct
  deriving DecidableEq

/-- SHADER_RESOURCE_VARIABLE_TYPE enumeration: static, mutable, dynamic. -/
inductive SHADER_RESOURCE_VARIABLE_TYPE where
  | Static
  | Mutable
  | Dynamic
  deriving DecidableEq

/-- PIPELINE_RESOURCE_FLAGS bits that the examined code inspects. -/
structure PIPELINE_RESOURCE_FLAGS where
  CombinedSampler : Bool
  FormattedBuffer : Bool
  RuntimeArray : Bool
  deriving DecidableEq

/-- The flag value PIPELINE_RESOURCE_FLAG_UNKNOWN (no bit set). -/
def PIPELINE_RESOURCE_FLAG_UNKNOWN : PIPELINE_RESOURCE_FLAGS :=
  ⟨false, false, false⟩

/-- PipelineResourceDesc: one declared resource of a signature.
Shader stages are a bit mask, modelled as a natural number. -/
structure PipelineResourceDesc where
  Name : String
  ShaderStages : Nat
  ArraySize : Nat
  ResourceType : SHADER_RESOURCE_TYPE
  VarType : SHADER_RESOURCE_VARIABLE_TYPE
  Flags : PIPELINE_RESOURCE_FLAGS
  deriving DecidableEq

/-- ImmutableSamplerDesc: shader stages, the texture-or-sampler name and
the sampler description (the SamplerDesc value itself only takes part in
equality comparisons and hashing, so it is modelled as a number). -/
structure ImmutableSamplerDesc where
  ShaderStages : Nat
  SamplerOrTextureName : String
  SamDesc : Nat
  deriving DecidableEq

/-- PipelineResourceSignatureDesc: the authored description of one
resource signature. -/
structure PipelineResourceSignatureDesc where
  Name : String
  Resources : List PipelineResourceDesc
  ImmutableSamplers : List ImmutableSamplerDesc
  BindingIndex : Nat
  UseCombinedTextureSamplers : Bool
  CombinedSamplerSuffix : String
  SRBAllocationGranularity : Nat
  deriving DecidableEq

/-- BINDING_RANGE enumeration of PipelineResourceSignatureGLImpl: the four
cache-slot ranges plus the BINDING_RANGE_UNKNOWN sentinel. -/
inductive BINDING_RANGE where
  | UniformBuffer
  | Texture
  | Image
  | StorageBuffer
  | Unknown
  deriving DecidableEq

/-- PipelineResourceToBindingRange
(PipelineResourceSignatureGLImpl.cpp, lines 67 to 86): classify a resource
into one of the four binding ranges; formatted buffers are redirected to
the texture and image ranges; samplers and acceleration structures fall
into the unexpected default branch, which returns BINDING_RANGE_UNKNOWN. -/
def PipelineResourceToBindingRange (Desc : PipelineResourceDesc) : BINDING_RANGE :=
  match Desc.ResourceType with
  | .ConstantBuffer => .UniformBuffer
  | .TextureSRV => .Texture
  | .BufferSRV => if Desc.Flags.FormattedBuffer then .Texture else .StorageBuffer
  | .TextureUAV => .Image
  | .BufferUAV => if Desc.Flags.FormattedBuffer then .Image else .StorageBuffer
  | .InputAttachment => .Texture
  | .Sampler => .Unknown
  | .AccelStruct => .Unknown
  | .Unknown => .Unknown

/-- The binding-range classification spelled exactly as the claim states
it, used only to compare against the source function above. -/
def bindingRangeOfClaim (t : SHADER_RESOURCE_TYPE)
    (formatted : Bool) : BINDING_RANGE :=
  match t with
  | .ConstantBuffer => .UniformBuffer
  | .TextureSRV => .Texture
  | .InputAttachment => .Texture
  | .TextureUAV => .Image
  | .BufferSRV => if formatted then .Texture else .StorageBuffer
  | .BufferUAV => if formatted then .Image else .StorageBuffer
  | _ => .Unknown

/-- TBindings, the per-binding-range slot counters of the GL signature
(an array indexed by the four binding ranges in the source). -/
structure TBindings where
  UniformBuffers : Nat
  Textures : Nat
  Images : Nat
  StorageBuffers : Nat
  deriving DecidableEq

/-- Read one counter of a TBindings value.  The source never indexes the
array with BINDING_RANGE_UNKNOWN (CreateLayout asserts the range is
valid), so the sentinel reads zero here. -/
def TBindings.get (b : TBindings) : BINDING_RANGE → Nat
  | .UniformBuffer => b.UniformBuffers
  | .Texture => b.Textures
  | .Image => b.Images
  | .StorageBuffer => b.StorageBuffers
  | .Unknown => 0

/-- Increase one counter of a TBindings value.  The BINDING_RANGE_UNKNOWN
sentinel, unreachable in the source, leaves the counters unchanged. -/
def TBindings.add (b : TBindings) (R : BINDING_RANGE) (n : Nat) : TBindings :=
  match R with
  | .UniformBuffer => { b with UniformBuffers := b.UniformBuffers + n }
  | .Texture => { b with Textures := b.Textures + n }
  | .Image => { b with Images := b.Images + n }
  | .StorageBuffer => { b with StorageBuffers := b.StorageBuffers + n }
  | .Unknown => b

/-- ResourceAttribs of the GL signature: the assigned cache-slot offset
(none models ResourceAttribs.InvalidCacheOffset), the assigned sampler
index (none models InvalidSamplerInd) and the flag recording whether an
immutable sampler is assigned. -/
structure ResourceAttribs where
  CacheOffset : Option Nat
  SamplerInd : Option Nat
  ImtblSamplerAssigned : Bool
  deriving DecidableEq

/-- A default ResourceAttribs value used with List.getD. -/
def dummyResourceAttribs : ResourceAttribs := ⟨none, none, false⟩

/-- A default PipelineResourceDesc value used with List.getD. -/
def dummyResourceDesc : PipelineResourceDesc :=
  ⟨"", 0, 0, .Unknown, .Static, PIPELINE_RESOURCE_FLAG_UNKNOWN⟩

/-- String comparison with an optional combined-sampler suffix.
Modelled from the spec: StreqSuff (StringTools.hpp) is not part of the
examined sources; with a suffix it tests that the first name equals the
second name with the suffix appended, without a suffix it is plain
string equality. -/
def StreqSuff (s1 s2 : String) (suffix : Option String) : Bool :=
  match suffix with
  | some sf => decide (s1 = s2 ++ sf)
  | none => decide (s1 = s2)

/-- Search for an immutable sampler matching a resource.
Modelled from the spec: FindImmutableSampler
(PipelineResourceSignatureBase) is not part of the examined sources; the
spec says a standalone sampler is matched against the declared immutable
samplers by stage visibility and name.  Returns the index of the first
immutable sampler whose stage mask intersects the resource stages and
whose name matches. -/
def FindImmutableSampler (samplers : List ImmutableSamplerDesc)
    (ShaderStages : Nat) (Name : String) (suffix : Option String) : Option Nat :=
  samplers.findIdx? fun s =>
    decide (s.ShaderStages &&& ShaderStages ≠ 0) &&
      StreqSuff Name s.SamplerOrTextureName suffix

/-- The combined-sampler suffix that the base-class helpers use for a
signature description: the declared suffix when combined texture
samplers are enabled, otherwise no suffix. -/
def glSamplerSuffix (d : PipelineResourceSignatureDesc) : Option String :=
  if d.UseCombinedTextureSamplers then some d.CombinedSamplerSuffix else none

/-- Search for the separate-sampler resource assigned to a texture SRV.
Modelled from the spec: FindAssignedSampler
(PipelineResourceSignatureBase) is not part of the examined sources.
When combined texture samplers are used it returns the index of the
first sampler resource of the same variability whose stage mask
intersects the texture stages and whose name is the texture name with
the combined-sampler suffix appended.  The result only feeds the
SamplerInd attribute, which the compatibility comparison ignores. -/
def FindAssignedSampler (d : PipelineResourceSignatureDesc)
    (SepImg : PipelineResourceDesc) : Option Nat :=
  if d.UseCombinedTextureSamplers then
    d.Resources.findIdx? fun r =>
      decide (r.ResourceType = .Sampler) &&
        decide (r.VarType = SepImg.VarType) &&
        decide (SepImg.ShaderStages &&& r.ShaderStages ≠ 0) &&
        StreqSuff r.Name SepImg.Name (some d.CombinedSamplerSuffix)
  else none

/-- The resource loop of PipelineResourceSignatureGLImpl::CreateLayout
(lines 158 to 204), with the running binding counters and the
static-only counter passed explicitly.  A standalone sampler only
records the immutable-sampler association and receives no cache slot;
every other resource receives the current counter of its binding range
as cache offset, after which the counter advances by the array size; a
static-variability resource additionally advances the static counter. -/
def CreateLayoutAux (d : PipelineResourceSignatureDesc) :
    List PipelineResourceDesc → TBindings → TBindings →
      List ResourceAttribs × TBindings × TBindings
  | [], bc, sc => ([], bc, sc)
  | r :: rest, bc, sc =>
    if r.ResourceType = .Sampler then
      let imtbl := FindImmutableSampler d.ImmutableSamplers r.ShaderStages
        r.Name (glSamplerSuffix d)
      let tail := CreateLayoutAux d rest bc sc
      (⟨none, imtbl, imtbl.isSome⟩ :: tail.1, tail.2)
    else
      let Range := PipelineResourceToBindingRange r
      let imtbl := if r.ResourceType = .TextureSRV then
          FindImmutableSampler d.ImmutableSamplers r.ShaderStages r.Name none
        else none
      let smp := if r.ResourceType = .TextureSRV then
          (match imtbl with
           | some i => some i
           | none => FindAssignedSampler d r)
        else none
      let off := bc.get Range
      let bc2 := bc.add Range r.ArraySize
      let sc2 := if r.VarType = .Static then sc.add Range r.ArraySize else sc
      let tail := CreateLayoutAux d rest bc2 sc2
      (⟨some off, smp, imtbl.isSome⟩ :: tail.1, tail.2)

/-- PipelineResourceSignatureGLImpl::CreateLayout (lines 151 to 210):
process all resources of the description starting from zeroed binding
counters, returning the per-resource attributes, the final
per-binding-range counters (m_BindingCount) and the static-only
counters (StaticResCounter). -/
def CreateLayout (d : PipelineResourceSignatureDesc) :
    List ResourceAttribs × TBindings × TBindings :=
  CreateLayoutAux d d.Resources ⟨0, 0, 0, 0⟩ ⟨0, 0, 0, 0⟩

/-- Numeric value of the ResourceAttribs invalid cache offset sentinel
used when hashing the attributes of standalone samplers. -/
def InvalidCacheOffset : Nat := 4294967295

/-- The numeric cache offset hashed for an attribute: the assigned
offset, or the invalid-offset sentinel for standalone samplers. -/
def cacheOffsetValue (a : ResourceAttribs) : Nat :=
  match a.CacheOffset with
  | some n => n
  | none => InvalidCacheOffset

/-- Numeric encoding of a shader resource type, following the order of
the SHADER_RESOURCE_TYPE enumeration. -/
def shaderResourceTypeCode : SHADER_RESOURCE_TYPE → Nat
  | .Unknown => 0
  | .ConstantBuffer => 1
  | .TextureSRV => 2
  | .BufferSRV => 3
  | .TextureUAV => 4
  | .BufferUAV => 5
  | .Sampler => 6
  | .InputAttachment => 7
  | .AccelStruct => 8

/-- Numeric encoding of a variable type, following the order of the
SHADER_RESOURCE_VARIABLE_TYPE enumeration. -/
def varTypeCode : SHADER_RESOURCE_VARIABLE_TYPE → Nat
  | .Static => 0
  | .Mutable => 1
  | .Dynamic => 2

/-- Numeric encoding of the pipeline resource flag bits. -/
def flagsCode (f : PIPELINE_RESOURCE_FLAGS) : Nat :=
  (if f.CombinedSampler then 1 else 0) +
    2 * (if f.FormattedBuffer then 1 else 0) +
    4 * (if f.RuntimeArray then 1 else 0)

/-- Word size of the size_t hash values. -/
def hashModulus : Nat := 18446744073709551616

/-- One step of hash combination.
Modelled from the spec: HashCombine (HashUtils.hpp) is not part of the
examined sources; the spec only requires a deterministic content hash.
Modelled after the well-known boost combiner on 64-bit words:
seed is xored with the value plus a constant plus seed shifted left by
six plus seed shifted right by two. -/
def hashCombine (seed v : Nat) : Nat :=
  (seed ^^^ ((v + 2654435769 + seed * 64 + seed / 4) % hashModulus)) % hashModulus

/-- Hash of one signature description.
Modelled from the spec: CalculatePipelineResourceSignatureDescHash
(PipelineResourceSignatureBase) is not part of the examined sources; the
spec describes it as a content hash over the description.  Combines the
resource count, the immutable-sampler count and the binding index, then
every resource declaration, then every immutable sampler. -/
def CalculatePipelineResourceSignatureDescHash
    (d : PipelineResourceSignatureDesc) : Nat :=
  let h0 := hashCombine (hashCombine (hashCombine 0 d.Resources.length)
    d.ImmutableSamplers.length) d.BindingIndex
  let h1 := d.Resources.foldl
    (fun h r => hashCombine (hashCombine (hashCombine (hashCombine
      (hashCombine h r.ArraySize) r.ShaderStages) (varTypeCode r.VarType))
      (flagsCode r.Flags)) (shaderResourceTypeCode r.ResourceType)) h0
  d.ImmutableSamplers.foldl
    (fun h s => hashCombine (hashCombine h s.ShaderStages) s.SamDesc) h1

/-- PipelineResourceSignatureGLImpl::CalculateHash (lines 212 to 225):
zero for a description with no resources and no immutable samplers
(the description hash is skipped entirely); otherwise the description
hash combined with every resource attribute cache offset. -/
def CalculateHash (d : PipelineResourceSignatureDesc)
    (attribs : List ResourceAttribs) : Nat :=
  if d.Resources.length = 0 ∧ d.ImmutableSamplers.length = 0 then 0
  else
    attribs.foldl (fun h a => hashCombine h (cacheOffsetValue a))
      (CalculatePipelineResourceSignatureDescHash d)

/-- The state of one constructed GL pipeline resource signature: the
description, the per-resource attributes, the final binding counters,
the static-only counters and the content hash. -/
structure PipelineResourceSignatureGLImpl where
  Desc : PipelineResourceSignatureDesc
  Attribs : List ResourceAttribs
  BindingCount : TBindings
  StaticCount : TBindings
  Hash : Nat

/-- Construction of a GL pipeline resource signature from a description,
as performed by the PipelineResourceSignatureGLImpl constructor (lines
89 to 149): CreateLayout followed by CalculateHash. -/
def mkSignature (d : PipelineResourceSignatureDesc) :
    PipelineResourceSignatureGLImpl :=
  let L := CreateLayout d
  ⟨d, L.1, L.2.1, L.2.2, CalculateHash d L.1⟩

/-- ResourcesCompatible (PipelineResourceSignatureGLImpl.cpp, lines 38 to
46): two resource attributes are compatible when their cache offsets and
their immutable-sampler-assigned flags agree; the sampler index itself
is ignored. -/
def ResourcesCompatible (lhs rhs : ResourceAttribs) : Bool :=
  decide (lhs.CacheOffset = rhs.CacheOffset ∧
    lhs.ImtblSamplerAssigned = rhs.ImtblSamplerAssigned)

/-- Compatibility of two resource declarations, names excluded.
Modelled from the spec: PipelineResourcesCompatible
(PipelineResourceSignatureBase) is not part of the examined sources;
compares the stage mask, array size, resource type, variable type and
flags of the declarations. -/
def PipelineResourcesCompatible (a b : PipelineResourceDesc) : Bool :=
  decide (a.ShaderStages = b.ShaderStages ∧ a.ArraySize = b.ArraySize ∧
    a.ResourceType = b.ResourceType ∧ a.VarType = b.VarType ∧
    a.Flags = b.Flags)

/-- Compatibility of two immutable-sampler declarations.
Modelled from the spec: compares stage mask and sampler description. -/
def ImmutableSamplersCompatible (a b : ImmutableSamplerDesc) : Bool :=
  decide (a.ShaderStages = b.ShaderStages ∧ a.SamDesc = b.SamDesc)

/-- Compatibility of two signature descriptions.
Modelled from the spec: PipelineResourceSignaturesCompatible
(PipelineResourceSignatureBase) is not part of the examined sources; it
compares the binding index, then the resource declarations pairwise
(names excluded) and the immutable samplers pairwise. -/
def PipelineResourceSignaturesCompatible
    (d0 d1 : PipelineResourceSignatureDesc) : Bool :=
  decide (d0.BindingIndex = d1.BindingIndex) &&
    decide (d0.Resources.length = d1.Resources.length) &&
    (d0.Resources.zip d1.Resources).all
      (fun p => PipelineResourcesCompatible p.1 p.2) &&
    decide (d0.ImmutableSamplers.length = d1.ImmutableSamplers.length) &&
    (d0.ImmutableSamplers.zip d1.ImmutableSamplers).all
      (fun p => ImmutableSamplersCompatible p.1 p.2)

/-- PipelineResourceSignatureGLImpl::IsCompatibleWith (lines 514 to 537):
hash comparison first, then the per-binding-range slot totals, then the
description compatibility, then the per-resource attribute comparison.
The pointer self-comparison of the source is an early out whose result
agrees with the remaining checks on equal values and is not modelled. -/
def IsCompatibleWith (S T : PipelineResourceSignatureGLImpl) : Bool :=
  decide (S.Hash = T.Hash) &&
    decide (S.BindingCount = T.BindingCount) &&
    PipelineResourceSignaturesCompatible S.Desc T.Desc &&
    (List.range S.Desc.Resources.length).all fun r =>
      ResourcesCompatible (S.Attribs.getD r dummyResourceAttribs)
        (T.Attribs.getD r dummyResourceAttribs)

/-- Sum of the array sizes of the non-sampler resources of a list that
fall into a given binding range. -/
def sizeOfRangeIn : List PipelineResourceDesc → BINDING_RANGE → Nat
  | [], _ => 0
  | r :: rest, R =>
    (if r.ResourceType ≠ .Sampler ∧ PipelineResourceToBindingRange r = R
      then r.ArraySize else 0) + sizeOfRangeIn rest R

/-- Sum of the array sizes of the static-variability non-sampler
resources of a list that fall into a given binding range. -/
def staticSizeOfRangeIn : List PipelineResourceDesc → BINDING_RANGE → Nat
  | [], _ => 0
  | r :: rest, R =>
    (if r.ResourceType ≠ .Sampler ∧ PipelineResourceToBindingRange r = R ∧
        r.VarType = .Static
      then r.ArraySize else 0) + staticSizeOfRangeIn rest R

/-- SPIRVShaderResourceAttribs::ResourceType: the twelve reflected SPIR-V
resource types (the source asserts NumResourceTypes == 12). -/
inductive SPIRVResourceType where
  | UniformBuffer
  | ROStorageBuffer
  | RWStorageBuffer
  | UniformTexelBuffer
  | StorageTexelBuffer
  | StorageImage
  | SampledImage
  | AtomicCounter
  | SeparateImage
  | SeparateSampler
  | InputAttachment
  | AccelerationStructure
  deriving DecidableEq

/-- SPIRVShaderResourceAttribs: one resource reflected from shader
byte-code, with the word offsets of its binding and descriptor-set
decorations inside the SPIR-V buffer. -/
structure SPIRVShaderResourceAttribs where
  Name : String
  ArraySize : Nat
  ResType : SPIRVResourceType
  ResourceDim : Nat
  IsMS : Bool
  BindingDecorationOffset : Nat
  DescriptorSetDecorationOffset : Nat
  deriving DecidableEq

/-- GetShaderResourceTypeAndFlags (PipelineStateVkImpl.cpp, lines 523 to
590): map a reflected SPIR-V resource type to the engine resource type
and pipeline resource flags. -/
def GetShaderResourceTypeAndFlags (t : SPIRVResourceType) :
    SHADER_RESOURCE_TYPE × PIPELINE_RESOURCE_FLAGS :=
  match t with
  | .UniformBuffer => (.ConstantBuffer, PIPELINE_RESOURCE_FLAG_UNKNOWN)
  | .ROStorageBuffer => (.BufferSRV, PIPELINE_RESOURCE_FLAG_UNKNOWN)
  | .RWStorageBuffer => (.BufferUAV, PIPELINE_RESOURCE_FLAG_UNKNOWN)
  | .UniformTexelBuffer => (.BufferSRV, ⟨false, true, false⟩)
  | .StorageTexelBuffer => (.BufferUAV, ⟨false, true, false⟩)
  | .StorageImage => (.TextureUAV, PIPELINE_RESOURCE_FLAG_UNKNOWN)
  | .SampledImage => (.TextureSRV, ⟨true, false, false⟩)
  | .AtomicCounter => (.BufferUAV, PIPELINE_RESOURCE_FLAG_UNKNOWN)
  | .SeparateImage => (.TextureSRV, PIPELINE_RESOURCE_FLAG_UNKNOWN)
  | .SeparateSampler => (.Sampler, PIPELINE_RESOURCE_FLAG_UNKNOWN)
  | .InputAttachment => (.InputAttachment, PIPELINE_RESOURCE_FLAG_UNKNOWN)
  | .AccelerationStructure => (.AccelStruct, PIPELINE_RESOURCE_FLAG_UNKNOWN)

/-- One entry of the pipeline resource layout variable list. -/
structure PipelineResourceLayoutVariable where
  ShaderStages : Nat
  Name : String
  VarType : SHADER_RESOURCE_VARIABLE_TYPE
  deriving DecidableEq

/-- The pipeline resource layout description consulted while deriving a
default signature. -/
structure PipelineResourceLayoutDesc where
  DefaultVariableType : SHADER_RESOURCE_VARIABLE_TYPE
  Variables : List PipelineResourceLayoutVariable
  ImmutableSamplers : List ImmutableSamplerDesc
  deriving DecidableEq

/-- Look up a resource-layout variable by name and shader stage.
Modelled from the spec: FindPipelineResourceLayoutVariable
(PipelineStateBase) is not part of the examined sources; returns the
first variable whose stage mask intersects the stage being processed and
whose name matches (with the combined-sampler suffix for separate
samplers). -/
def FindPipelineResourceLayoutVariable (layout : PipelineResourceLayoutDesc)
    (Name : String) (ShaderStage : Nat) (suffix : Option String) :
    Option PipelineResourceLayoutVariable :=
  layout.Variables.find? fun v =>
    decide (v.ShaderStages &&& ShaderStage ≠ 0) && StreqSuff Name v.Name suffix

/-- Resolve the shader stages and variable type recorded for a reflected
resource: the matching layout variable overrides the processing stage
and default variable type (PipelineStateVkImpl.cpp, lines 787 to 802). -/
def resolveVariable (layout : PipelineResourceLayoutDesc) (stageType : Nat)
    (usingCombined : Bool) (suffixStr : String)
    (a : SPIRVShaderResourceAttribs) : Nat × SHADER_RESOURCE_VARIABLE_TYPE :=
  let samplerSuffix :=
    if usingCombined ∧ a.ResType = .SeparateSampler then some suffixStr else none
  match FindPipelineResourceLayoutVariable layout a.Name stageType samplerSuffix with
  | some v => (v.ShaderStages, v.VarType)
  | none => (stageType, layout.DefaultVariableType)

/-- Failures of default-signature derivation. -/
inductive DefSignError where
  | RuntimeArray (name : String)
  | MergeConflict (name : String) (property : String)
  | SuffixMismatch
  deriving DecidableEq

/-- VerifyResourceMerge (PipelineStateVkImpl.cpp, lines 592 to 615): a
shared resource must agree with the first-seen declaration on type,
resource dimension, array size and multisample state, checked in that
order. -/
def VerifyResourceMerge (ExistingRes NewResAttribs : SPIRVShaderResourceAttribs) :
    Except DefSignError Unit :=
  if ExistingRes.ResType ≠ NewResAttribs.ResType then
    .error (.MergeConflict NewResAttribs.Name "type")
  else if ExistingRes.ResourceDim ≠ NewResAttribs.ResourceDim then
    .error (.MergeConflict NewResAttribs.Name "resource dimension")
  else if ExistingRes.ArraySize ≠ NewResAttribs.ArraySize then
    .error (.MergeConflict NewResAttribs.Name "array size")
  else if ExistingRes.IsMS ≠ NewResAttribs.IsMS then
    .error (.MergeConflict NewResAttribs.Name "multisample state")
  else .ok ()

/-- Accumulated state of default-signature derivation: the set of unique
resources already seen (keyed by name and resolved stage mask, storing
the first-seen reflected attributes), the merged resource list, and the
combined-sampler suffix adopted so far. -/
structure MergeState where
  seen : List ((String × Nat) × SPIRVShaderResourceAttribs)
  resources : List PipelineResourceDesc
  suffix : Option String
  deriving DecidableEq

/-- The empty derivation state. -/
def initMergeState : MergeState := ⟨[], [], none⟩

/-- The unique-resource key of a reflected resource: its name paired with
its resolved stage mask (the UniqueResource equality of the source at
lines 743 to 760). -/
def resolvedKey (layout : PipelineResourceLayoutDesc) (stageType : Nat)
    (usingCombined : Bool) (suffixStr : String)
    (a : SPIRVShaderResourceAttribs) : String × Nat :=
  (a.Name, (resolveVariable layout stageType usingCombined suffixStr a).1)

/-- The merged resource declaration produced for a reflected resource
(PipelineStateVkImpl.cpp, line 817). -/
def toMergedDesc (layout : PipelineResourceLayoutDesc) (stageType : Nat)
    (usingCombined : Bool) (suffixStr : String)
    (a : SPIRVShaderResourceAttribs) : PipelineResourceDesc :=
  let rv := resolveVariable layout stageType usingCombined suffixStr a
  let tf := GetShaderResourceTypeAndFlags a.ResType
  ⟨a.Name, rv.1, a.ArraySize, tf.1, rv.2, tf.2⟩

/-- Processing of one reflected resource during default-signature
derivation (PipelineStateVkImpl.cpp, lines 774 to 823): a resource with
an already-seen key is checked against the first-seen declaration; a
fresh resource with array size zero (a runtime-sized array) is rejected;
otherwise the resource is recorded under its key and appended to the
merged list. -/
def processResource (layout : PipelineResourceLayoutDesc) (stageType : Nat)
    (usingCombined : Bool) (suffixStr : String) (st : MergeState)
    (a : SPIRVShaderResourceAttribs) : Except DefSignError MergeState :=
  match st.seen.find?
      (fun s => decide (s.1 = resolvedKey layout stageType usingCombined suffixStr a)) with
  | some s =>
    match VerifyResourceMerge s.2 a with
    | .error e => .error e
    | .ok _ => .ok st
  | none =>
    if a.ArraySize = 0 then .error (.RuntimeArray a.Name)
    else
      .ok { st with
            seen := st.seen ++
              [(resolvedKey layout stageType usingCombined suffixStr a, a)],
            resources := st.resources ++
              [toMergedDesc layout stageType usingCombined suffixStr a] }

/-- Processing of the reflected resource list of one shader. -/
def processResources (layout : PipelineResourceLayoutDesc) (stageType : Nat)
    (usingCombined : Bool) (suffixStr : String) :
    MergeState → List SPIRVShaderResourceAttribs →
      Except DefSignError MergeState
  | st, [] => .ok st
  | st, a :: rest =>
    match processResource layout stageType usingCombined suffixStr st a with
    | .error e => .error e
    | .ok st2 => processResources layout stageType usingCombined suffixStr st2 rest

/-- The shader-reflection data of one shader consumed by
default-signature derivation. -/
structure ShaderInfo where
  Resources : List SPIRVShaderResourceAttribs
  UsingCombinedSamplers : Bool
  NumSepSmplrs : Nat
  CombinedSamplerSuffix : String
  deriving DecidableEq

/-- Combined-sampler suffix merging (PipelineStateVkImpl.cpp, lines 825
to 837): a shader that uses combined samplers and has separate samplers
must agree with the suffix adopted so far. -/
def mergeSuffix (sh : ShaderInfo) (st : MergeState) :
    Except DefSignError MergeState :=
  if sh.UsingCombinedSamplers ∧ 0 < sh.NumSepSmplrs then
    match st.suffix with
    | some s =>
      if s = sh.CombinedSamplerSuffix then .ok st else .error .SuffixMismatch
    | none => .ok { st with suffix := some sh.CombinedSamplerSuffix }
  else .ok st

/-- The stage and shader loops of
PipelineStateVkImpl::CreateDefaultSignature (lines 767 to 839), over the
flattened list of (stage type, shader) pairs: each shader's reflected
resources are processed in order, then its combined-sampler suffix is
merged. -/
def processShaders (layout : PipelineResourceLayoutDesc) :
    MergeState → List (Nat × ShaderInfo) → Except DefSignError MergeState
  | st, [] => .ok st
  | st, (t, sh) :: rest =>
    match processResources layout t sh.UsingCombinedSamplers
        sh.CombinedSamplerSuffix st sh.Resources with
    | .error e => .error e
    | .ok st2 =>
      match mergeSuffix sh st2 with
      | .error e => .error e
      | .ok st3 => processShaders layout st3 rest

/-- PipelineStateVkImpl::CreateDefaultSignature (lines 739 to 868),
restricted to the resource-merging part that decides success or failure
and produces the merged resource list of the implicit signature. -/
def CreateDefaultSignature (layout : PipelineResourceLayoutDesc)
    (stages : List (Nat × ShaderInfo)) : Except DefSignError MergeState :=
  processShaders layout initMergeState stages

/-- The flattened list of reflected resources of all shaders of all
stages, each carrying the context used to resolve it. -/
def flatAttribs (stages : List (Nat × ShaderInfo)) :
    List (Nat × Bool × String × SPIRVShaderResourceAttribs) :=
  stages.flatMap fun p =>
    p.2.Resources.map fun a =>
      (p.1, p.2.UsingCombinedSamplers, p.2.CombinedSamplerSuffix, a)

/-- The resolved key of one flattened item. -/
def itemKey (layout : PipelineResourceLayoutDesc)
    (x : Nat × Bool × String × SPIRVShaderResourceAttribs) : String × Nat :=
  resolvedKey layout x.1 x.2.1 x.2.2.1 x.2.2.2

/-- The merged declaration of one flattened item. -/
def itemDesc (layout : PipelineResourceLayoutDesc)
    (x : Nat × Bool × String × SPIRVShaderResourceAttribs) :
    PipelineResourceDesc :=
  toMergedDesc layout x.1 x.2.1 x.2.2.1 x.2.2.2

/-- The reflected attributes of one flattened item. -/
def itemAttr (x : Nat × Bool × String × SPIRVShaderResourceAttribs) :
    SPIRVShaderResourceAttribs :=
  x.2.2.2

/-- Agreement of two reflected declarations on the four properties that
VerifyResourceMerge compares: type, resource dimension, array size and
multisample state. -/
def FieldsAgree (a b : SPIRVShaderResourceAttribs) : Prop :=
  a.ResType = b.ResType ∧ a.ResourceDim = b.ResourceDim ∧
    a.ArraySize = b.ArraySize ∧ a.IsMS = b.IsMS

/-- The key stored in a merged resource declaration. -/
def descKey (r : PipelineResourceDesc) : String × Nat :=
  (r.Name, r.ShaderStages)

/-- The byte-code rewriting loop of
PipelineStateVkImpl::InitPipelineLayout (lines 906 to 960): each
reflected resource is resolved by name to a binding index, the first
descriptor-set index of its signature and its descriptor set; an
unresolved resource aborts with an error naming it; a resolved resource
overwrites the SPIR-V word at its binding-decoration offset with the
binding index and the word at its descriptor-set-decoration offset with
the first descriptor-set index plus the descriptor set.  The word buffer
is modelled as a list of naturals. -/
def PatchSpirvWords (resolve : String → Option (Nat × Nat × Nat)) :
    List SPIRVShaderResourceAttribs → List Nat → Except String (List Nat)
  | [], spirv => .ok spirv
  | a :: rest, spirv =>
    match resolve a.Name with
    | none => .error a.Name
    | some (binding, firstSet, dset) =>
      PatchSpirvWords resolve rest
        ((spirv.set a.BindingDecorationOffset binding).set
          a.DescriptorSetDecorationOffset (firstSet + dset))

/-- All decoration word offsets touched by the patching loop for a list
of reflected resources. -/
def decorationOffsets (rs : List SPIRVShaderResourceAttribs) : List Nat :=
  rs.flatMap fun a => [a.BindingDecorationOffset, a.DescriptorSetDecorationOffset]

/-- DescriptorType (VulkanUtilities): the descriptor classes counted by
the resource-limit validation. -/
inductive DescriptorType where
  | Sampler
  | CombinedImageSampler
  | SeparateImage
  | StorageImage
  | UniformTexelBuffer
  | StorageTexelBuffer
  | StorageTexelBufferReadOnly
  | UniformBuffer
  | UniformBufferDynamic
  | StorageBuffer
  | StorageBufferReadOnly
  | StorageBufferDynamic
  | StorageBufferDynamicReadOnly
  | InputAttachment
  | AccelerationStructure
  deriving DecidableEq

/-- The Vulkan signature resource attributes consumed by the limit
validation: descriptor type and array size. -/
structure VkResourceAttribs where
  DescrType : DescriptorType
  ArraySize : Nat
  deriving DecidableEq

/-- The data of one Vulkan resource signature consumed by the limit
validation: the declared resources paired with their attributes. -/
structure VkSignatureData where
  Resources : List (PipelineResourceDesc × VkResourceAttribs)
  deriving DecidableEq

/-- The physical-device capability values consulted by
DvpValidateResourceLimits.  The two functions abstract the
descriptor-indexing feature and property structures: for each
descriptor type they tell whether non-uniform indexing is supported and
whether it is native. -/
structure PhysicalDeviceLimits where
  maxDescriptorSetSamplers : Nat
  maxDescriptorSetSampledImages : Nat
  maxDescriptorSetStorageImages : Nat
  maxDescriptorSetStorageBuffers : Nat
  maxDescriptorSetStorageBuffersDynamic : Nat
  maxDescriptorSetUniformBuffers : Nat
  maxDescriptorSetUniformBuffersDynamic : Nat
  maxDescriptorSetInputAttachments : Nat
  maxDescriptorSetAccelerationStructures : Nat
  maxPerStageResources : Nat
  maxPerStageDescriptorSamplers : Nat
  maxPerStageDescriptorSampledImages : Nat
  maxPerStageDescriptorStorageImages : Nat
  maxPerStageDescriptorStorageBuffers : Nat
  maxPerStageDescriptorUniformBuffers : Nat
  maxPerStageDescriptorInputAttachments : Nat
  maxPerStageDescriptorAccelerationStructures : Nat
  nonUniformIndexingSupported : DescriptorType → Bool
  nonUniformIndexingNative : DescriptorType → Bool

/-- The support and nativeness of non-uniform indexing per descriptor
type (PipelineStateVkImpl.cpp, lines 1135 to 1188): samplers and
acceleration structures are always supported and native; the other types
consult the descriptor-indexing features and properties. -/
def runtimeArrayIndexingInfo (L : PhysicalDeviceLimits)
    (t : DescriptorType) : Bool × Bool :=
  match t with
  | .Sampler => (true, true)
  | .AccelerationStructure => (true, true)
  | _ => (L.nonUniformIndexingSupported t, L.nonUniformIndexingNative t)

/-- MAX_SHADERS_IN_PIPELINE: the number of per-stage counter slots. -/
def MAX_SHADERS_IN_PIPELINE : Nat := 6

/-- A conditional diagnostic message. -/
def checkMsg (cond : Bool) (msg : String) : List String :=
  if cond then [msg] else []

/-- Sum of the array sizes of the resources of the given descriptor type
across all signatures. -/
def descriptorCount (sigs : List VkSignatureData) (t : DescriptorType) : Nat :=
  (sigs.flatMap (fun sg => sg.Resources)).foldl
    (fun n p => if p.2.DescrType = t then n + p.2.ArraySize else n) 0

/-- Sum of the array sizes of the resources of the given descriptor type
visible to the given shader-stage index (a bit of the stage mask;
the mapping from shader-type bit to pipeline stage index, performed by
GetShaderTypePipelineIndex outside the examined sources, is modelled as
the bit position). -/
def perStageDescriptorCount (sigs : List VkSignatureData) (stage : Nat)
    (t : DescriptorType) : Nat :=
  (sigs.flatMap (fun sg => sg.Resources)).foldl
    (fun n p =>
      if p.2.DescrType = t ∧ (p.1.ShaderStages >>> stage) % 2 = 1 then
        n + p.2.ArraySize
      else n) 0

/-- Whether any resource of any signature is visible to the given
shader-stage index (ShaderStagePresented in the source). -/
def stagePresented (sigs : List VkSignatureData) (stage : Nat) : Bool :=
  (sigs.flatMap (fun sg => sg.Resources)).any
    (fun p => decide ((p.1.ShaderStages >>> stage) % 2 = 1))

/-- The runtime-array diagnostic messages of the resource loop of
DvpValidateResourceLimits (lines 1131 to 1201): a resource with the
RUNTIME_ARRAY flag produces a message when non-uniform indexing is
unsupported for its descriptor type, and a performance message when it
is supported but emulated. -/
def runtimeArrayMessages (L : PhysicalDeviceLimits)
    (sigs : List VkSignatureData) : List String :=
  (sigs.flatMap (fun sg => sg.Resources)).flatMap fun p =>
    if p.1.Flags.RuntimeArray then
      let info := runtimeArrayIndexingInfo L p.2.DescrType
      if !info.1 then
        [String.append p.1.Name
          " is defined with RUNTIME_ARRAY flag, but current device does not support non-uniform indexing for this resource type"]
      else if !info.2 then
        [String.append p.1.Name
          " is defined with RUNTIME_ARRAY flag, but non-uniform indexing is emulated on this device"]
      else []
    else []

/-- The total descriptor-count checks of DvpValidateResourceLimits
(lines 1205 to 1245): each DEV_CHECK_ERR that fails contributes one
diagnostic message; nothing else happens. -/
def totalDescriptorMessages (L : PhysicalDeviceLimits)
    (sigs : List VkSignatureData) : List String :=
  let c := descriptorCount sigs
  let NumSampledImages := c .CombinedImageSampler + c .SeparateImage +
    c .UniformTexelBuffer
  let NumStorageImages := c .StorageImage + c .StorageTexelBuffer +
    c .StorageTexelBufferReadOnly
  let NumStorageBuffers := c .StorageBuffer + c .StorageBufferReadOnly
  let NumDynamicStorageBuffers := c .StorageBufferDynamic +
    c .StorageBufferDynamicReadOnly
  let NumSamplers := c .Sampler
  let NumUniformBuffers := c .UniformBuffer
  let NumDynamicUniformBuffers := c .UniformBufferDynamic
  let NumInputAttachments := c .InputAttachment
  let NumAccelerationStructures := c .AccelerationStructure
  checkMsg (decide (L.maxDescriptorSetSamplers < NumSamplers))
      "the number of samplers exceeds the limit" ++
    checkMsg (decide (L.maxDescriptorSetSampledImages < NumSampledImages))
      "the number of sampled images exceeds the limit" ++
    checkMsg (decide (L.maxDescriptorSetStorageImages < NumStorageImages))
      "the number of storage images exceeds the limit" ++
    checkMsg (decide (L.maxDescriptorSetStorageBuffers < NumStorageBuffers))
      "the number of storage buffers exceeds the limit" ++
    checkMsg (decide (L.maxDescriptorSetStorageBuffersDynamic < NumDynamicStorageBuffers))
      "the number of dynamic storage buffers exceeds the limit" ++
    checkMsg (decide (L.maxDescriptorSetUniformBuffers < NumUniformBuffers))
      "the number of uniform buffers exceeds the limit" ++
    checkMsg (decide (L.maxDescriptorSetUniformBuffersDynamic < NumDynamicUniformBuffers))
      "the number of dynamic uniform buffers exceeds the limit" ++
    checkMsg (decide (L.maxDescriptorSetInputAttachments < NumInputAttachments))
      "the number of input attachments exceeds the limit" ++
    checkMsg (decide (L.maxDescriptorSetAccelerationStructures < NumAccelerationStructures))
      "the number of acceleration structures exceeds the limit"

/-- The per-stage descriptor-count checks of DvpValidateResourceLimits
(lines 1247 to 1294) for one presented stage index. -/
def perStageDescriptorMessages (L : PhysicalDeviceLimits)
    (sigs : List VkSignatureData) (stage : Nat) : List String :=
  let c := perStageDescriptorCount sigs stage
  let NumSampledImages := c .CombinedImageSampler + c .SeparateImage +
    c .UniformTexelBuffer
  let NumStorageImages := c .StorageImage + c .StorageTexelBuffer +
    c .StorageTexelBufferReadOnly
  let NumStorageBuffers := c .StorageBuffer + c .StorageBufferReadOnly +
    c .StorageBufferDynamic + c .StorageBufferDynamicReadOnly
  let NumUniformBuffers := c .UniformBuffer + c .UniformBufferDynamic
  let NumSamplers := c .Sampler
  let NumInputAttachments := c .InputAttachment
  let NumAccelerationStructures := c .AccelerationStructure
  let NumResources := NumSampledImages + NumStorageImages + NumStorageBuffers +
    NumUniformBuffers + NumSamplers + NumInputAttachments +
    NumAccelerationStructures
  checkMsg (decide (L.maxPerStageResources < NumResources))
      "the total number of resources exceeds the per-stage limit" ++
    checkMsg (decide (L.maxPerStageDescriptorSamplers < NumSamplers))
      "the number of samplers exceeds the per-stage limit" ++
    checkMsg (decide (L.maxPerStageDescriptorSampledImages < NumSampledImages))
      "the number of sampled images exceeds the per-stage limit" ++
    checkMsg (decide (L.maxPerStageDescriptorStorageImages < NumStorageImages))
      "the number of storage images exceeds the per-stage limit" ++
    checkMsg (decide (L.maxPerStageDescriptorStorageBuffers < NumStorageBuffers))
      "the number of storage buffers exceeds the per-stage limit" ++
    checkMsg (decide (L.maxPerStageDescriptorUniformBuffers < NumUniformBuffers))
      "the number of uniform buffers exceeds the per-stage limit" ++
    checkMsg (decide (L.maxPerStageDescriptorInputAttachments < NumInputAttachments))
      "the number of input attachments exceeds the per-stage limit" ++
    checkMsg (decide (L.maxPerStageDescriptorAccelerationStructures < NumAccelerationStructures))
      "the number of acceleration structures exceeds the per-stage limit"

/-- PipelineStateVkImpl::DvpValidateResourceLimits (lines 1098 to 1295):
the function only collects diagnostic messages; it neither modifies the
pipeline state nor reports a failure.  The runtime-array messages come
first (they are emitted inside the counting loop), then the total
descriptor checks, then the per-stage checks for every presented
stage. -/
def DvpValidateResourceLimits (L : PhysicalDeviceLimits)
    (sigs : List VkSignatureData) : List String :=
  runtimeArrayMessages L sigs ++ totalDescriptorMessages L sigs ++
    (List.range MAX_SHADERS_IN_PIPELINE).flatMap fun stage =>
      if stagePresented sigs stage then perStageDescriptorMessages L sigs stage
      else []

/-- PipelineStateVkImpl::InitPipelineLayout (lines 870 to 963), with the
implicit-signature branch elided (the signatures are passed in):
DvpValidateResourceLimits runs only in development builds and its
diagnostics are the second component; the byte-code of every shader of
every stage is then patched.  The construction result is the first
component. -/
def InitPipelineLayout (development : Bool) (L : PhysicalDeviceLimits)
    (sigs : List VkSignatureData)
    (resolve : String → Option (Nat × Nat × Nat))
    (stages : List (List SPIRVShaderResourceAttribs × List Nat)) :
    Except String (List (List Nat)) × List String :=
  let msgs := if development then DvpValidateResourceLimits L sigs else []
  (stages.mapM (fun p => PatchSpirvWords resolve p.1 p.2), msgs)

/-- RESOURCE_STATE usage states of the tracker.
Modelled from the spec: the resource-state tracker implementation is not
part of the examined sources (only the RESOURCE_STATE_TRANSITION_MODE
documentation in DeviceContext.h, lines 68 to 83, is); the states are
the closed set named by the spec. -/
inductive UsageState where
  | Undefined
  | RenderTarget
  | DepthWrite
  | ShaderResource
  | UnorderedAccess
  | CopySource
  | CopyDest
  | VertexBuffer
  | IndexBuffer
  | Present
  deriving DecidableEq

/-- RESOURCE_STATE_TRANSITION_MODE (DeviceContext.h, lines 69 to 83). -/
inductive RESOURCE_STATE_TRANSITION_MODE where
  | NONE
  | TRANSITION
  | VERIFY
  deriving DecidableEq

/-- The tracked state of one resource: none is the unknown state, in
which automatic tracking is disabled. -/
def TrackedState : Type := Option UsageState

/-- One state-transition request.
Modelled from the spec: the transition logic of the device contexts is
not part of the examined sources; DeviceContext.h documents that
TRANSITION ignores resources in unknown state, and the spec adds that
otherwise a barrier is emitted and the state is updated exactly when the
current state differs from the required one, except that an
unordered-access to unordered-access transition emits an execution
barrier without a state write; VERIFY only reports a development-build
validation failure when the known state differs; NONE touches nothing.
Returns the new tracked state, whether a barrier was emitted and whether
a validation failure was reported. -/
def stateTransitionOp (mode : RESOURCE_STATE_TRANSITION_MODE)
    (development : Bool) (current : Option UsageState)
    (required : UsageState) : Option UsageState × Bool × Bool :=
  match mode with
  | .NONE => (current, false, false)
  | .TRANSITION =>
    match current with
    | none => (none, false, false)
    | some cur =>
      if cur = required then
        (some cur, decide (cur = .UnorderedAccess), false)
      else (some required, true, false)
  | .VERIFY =>
    match current with
    | none => (current, false, false)
    | some cur => (current, false, development && decide (cur ≠ required))

/-- A sequence of TRANSITION-mode requests applied to one resource:
returns the final tracked state and the list of barrier-emitted flags. -/
def runTransitions (development : Bool) :
    Option UsageState → List UsageState → Option UsageState × List Bool
  | st, [] => (st, [])
  | st, req :: rest =>
    let step := stateTransitionOp .TRANSITION development st req
    let tail := runTransitions development step.1 rest
    (tail.1, step.2.1 :: tail.2)

/-- Scenario description of the layout-creation claim: one static uniform
buffer of array size one followed by one dynamic texture SRV of array
size four. -/
def scenarioDesc : PipelineResourceSignatureDesc :=
  ⟨"scenario",
    [⟨"g_Constants", 1, 1, .ConstantBuffer, .Static, PIPELINE_RESOURCE_FLAG_UNKNOWN⟩,
     ⟨"g_Textures", 1, 4, .TextureSRV, .Dynamic, PIPELINE_RESOURCE_FLAG_UNKNOWN⟩],
    [], 0, false, "", 1⟩

/-- An empty signature description with binding index zero. -/
def emptyDescA : PipelineResourceSignatureDesc :=
  ⟨"EmptyA", [], [], 0, false, "", 1⟩

/-- An empty signature description with binding index one. -/
def emptyDescB : PipelineResourceSignatureDesc :=
  ⟨"EmptyB", [], [], 1, false, "", 1⟩

/-- Resource layout of the merge scenario: the variable g_Tex is declared
for the stage mask three, the union of the two stage bits, so both
stages resolve it to the same unique-resource key. -/
def mergeScenarioLayout : PipelineResourceLayoutDesc :=
  ⟨.Mutable, [⟨3, "g_Tex", .Mutable⟩], []⟩

/-- A reflected two-dimensional texture g_Tex of array size one. -/
def gTexAttribs : SPIRVShaderResourceAttribs :=
  ⟨"g_Tex", 1, .SeparateImage, 2, false, 0, 1⟩

/-- A reflected two-dimensional texture g_Tex of array size two,
conflicting with the declaration of array size one. -/
def gTexAttribsSize2 : SPIRVShaderResourceAttribs :=
  ⟨"g_Tex", 2, .SeparateImage, 2, false, 0, 1⟩

/-- A shader declaring the given reflected resources, without combined
samplers. -/
def plainShader (rs : List SPIRVShaderResourceAttribs) : ShaderInfo :=
  ⟨rs, false, 0, ""⟩

/-- Merge scenario input: two stages (bits one and two) both declaring
g_Tex identically. -/
def mergeScenarioStages : List (Nat × ShaderInfo) :=
  [(1, plainShader [gTexAttribs]), (2, plainShader [gTexAttribs])]

/-- Conflict scenario input: the second stage declares g_Tex with array
size two. -/
def mergeConflictStages : List (Nat × ShaderInfo) :=
  [(1, plainShader [gTexAttribs]), (2, plainShader [gTexAttribsSize2])]

/-- Runtime-array scenario input: one stage declares a resource of array
size zero. -/
def runtimeArrayStages : List (Nat × ShaderInfo) :=
  [(1, plainShader [⟨"g_Unsized", 0, .SeparateImage, 2, false, 0, 1⟩])]

/-- Concrete reflected resource list for the byte-code patching witness:
one texture whose binding decoration lives at word three and whose
descriptor-set decoration lives at word five. -/
def patchWitnessAttribs : List SPIRVShaderResourceAttribs :=
  [⟨"g_Tex", 1, .SeparateImage, 2, false, 3, 5⟩]

/-- Concrete resolution map for the byte-code patching witness: g_Tex
receives binding seven in a signature whose first descriptor set is two,
descriptor set one within the signature. -/
def patchWitnessResolve (name : String) : Option (Nat × Nat × Nat) :=
  if name = "g_Tex" then some (7, 2, 1) else none

/-- Concrete six-word byte-code buffer for the patching witness. -/
def patchWitnessSpirv : List Nat := [100, 101, 102, 103, 104, 105]

/-- Device limits for the limit-violation scenario: no sampler
descriptors are allowed, every other limit is ample. -/
def tightLimits : PhysicalDeviceLimits :=
  ⟨0, 1000, 1000, 1000, 1000, 1000, 1000, 1000, 1000, 1000, 1000, 1000,
    1000, 1000, 1000, 1000, 1000, fun _ => true, fun _ => true⟩

/-- Device limits with every limit ample. -/
def amplLimits : PhysicalDeviceLimits :=
  ⟨1000, 1000, 1000, 1000, 1000, 1000, 1000, 1000, 1000, 1000, 1000, 1000,
    1000, 1000, 1000, 1000, 1000, fun _ => true, fun _ => true⟩

/-- A signature list with one sampler descriptor, used to exceed the
tight sampler limit. -/
def samplerHeavySigs : List VkSignatureData :=
  [⟨[(⟨"g_Sampler", 1, 1, .Sampler, .Static, PIPELINE_RESOURCE_FLAG_UNKNOWN⟩,
      ⟨DescriptorType.Sampler, 1⟩)]⟩]

/-- Claim C8: the binding-range classification maps constant buffers to
the uniform-buffer range, texture SRVs and input attachments to the
texture range, texture UAVs to the image range; a buffer SRV goes to the
texture range when flagged as a formatted buffer and to the
storage-buffer range otherwise, and a buffer UAV goes to the image range
when flagged as a formatted buffer and to the storage-buffer range
otherwise. -/
theorem pipelineResourceToBindingRange_classification
    (name : String) (stages arr : Nat) (t : SHADER_RESOURCE_TYPE)
    (vt : SHADER_RESOURCE_VARIABLE_TYPE) (fl : PIPELINE_RESOURCE_FLAGS) :
    PipelineResourceToBindingRange ⟨name, stages, arr, t, vt, fl⟩ =
      bindingRangeOfClaim t fl.FormattedBuffer := by
  cases t <;> rfl

/-- Claim C3: a resource whose recorded state is unknown is never touched
by a TRANSITION-mode request: one request emits no barrier and performs
no write, and any sequence of TRANSITION-mode requests leaves the state
unknown and emits no barrier at any step. -/
theorem transition_mode_skips_unknown_state :
    (∀ (development : Bool) (required : UsageState),
        stateTransitionOp .TRANSITION development none required =
          (none, false, false))
    ∧ ∀ (development : Bool) (reqs : List UsageState),
        runTransitions development none reqs = (none, reqs.map fun _ => false) := by
  refine ⟨fun _ _ => rfl, fun dev reqs => ?_⟩
  induction reqs with
  | nil => rfl
  | cons h t ih => simp [runTransitions, stateTransitionOp, ih]

/-- Claim C9: exceeding a descriptor-count capability limit never makes
pipeline creation fail: the construction result does not depend on the
limits or on the development flag, a release build produces no
diagnostics at all, and in a development build a violated limit yields a
diagnostic message while the layout is still built. -/
theorem resource_limit_checks_never_fail_creation :
    (∀ (dev1 dev2 : Bool) (L1 L2 : PhysicalDeviceLimits)
        (sigs : List VkSignatureData)
        (resolve : String → Option (Nat × Nat × Nat))
        (stages : List (List SPIRVShaderResourceAttribs × List Nat)),
        (InitPipelineLayout dev1 L1 sigs resolve stages).1 =
          (InitPipelineLayout dev2 L2 sigs resolve stages).1)
    ∧ (∀ (L : PhysicalDeviceLimits) (sigs : List VkSignatureData)
        (resolve : String → Option (Nat × Nat × Nat))
        (stages : List (List SPIRVShaderResourceAttribs × List Nat)),
        (InitPipelineLayout false L sigs resolve stages).2 = [])
    ∧ (InitPipelineLayout true tightLimits samplerHeavySigs
        patchWitnessResolve []).2 = ["the number of samplers exceeds the limit"]
    ∧ (InitPipelineLayout true tightLimits samplerHeavySigs
        patchWitnessResolve []).1 = .ok []
    ∧ (InitPipelineLayout true amplLimits samplerHeavySigs
        patchWitnessResolve []).2 = [] := by
  exact ⟨fun _ _ _ _ _ _ _ => rfl, fun _ _ _ _ => rfl, by decide, rfl, by decide⟩

/-- Claim C10: a signature whose description has no resources and no
immutable samplers hashes to exactly zero, so any two such signatures
have equal hashes and pass the hash fast-path of the compatibility
comparison. -/
theorem empty_signature_hash_zero (d1 d2 : PipelineResourceSignatureDesc)
    (h1 : d1.Resources = []) (h1s : d1.ImmutableSamplers = [])
    (h2 : d2.Resources = []) (h2s : d2.ImmutableSamplers = []) :
    (mkSignature d1).Hash = 0 ∧ (mkSignature d2).Hash = 0 ∧
      (mkSignature d1).Hash = (mkSignature d2).Hash := by
  refine ⟨?_, ?_, ?_⟩ <;> simp [mkSignature, CalculateHash, h1, h1s, h2, h2s]

/-- Witness for the empty-signature hash claim at two concrete empty
descriptions. -/
theorem empty_signature_hash_zero_witness :
    (mkSignature emptyDescA).Hash = 0 ∧ (mkSignature emptyDescB).Hash = 0 ∧
      (mkSignature emptyDescA).Hash = (mkSignature emptyDescB).Hash :=
  empty_signature_hash_zero emptyDescA emptyDescB rfl rfl rfl rfl

/-- Attribute compatibility is reflexive. -/
theorem resourcesCompatible_refl (a : ResourceAttribs) :
    ResourcesCompatible a a = true := by
  simp [ResourcesCompatible]

/-- Every pair of the zip of a list with itself is a duplicated
element. -/
theorem mem_zip_self {α : Type} (l : List α) (p : α × α) (hp : p ∈ l.zip l) :
    p.1 = p.2 := by
  induction l with
  | nil => cases hp
  | cons x xs ih =>
    rw [List.zip_cons_cons] at hp
    rcases List.mem_cons.mp hp with h | h
    · rw [h]
    · exact ih h

/-- Description compatibility is reflexive. -/
theorem signaturesCompatible_refl (d : PipelineResourceSignatureDesc) :
    PipelineResourceSignaturesCompatible d d = true := by
  have hz : (d.Resources.zip d.Resources).all
      (fun p => PipelineResourcesCompatible p.1 p.2) = true := by
    refine List.all_eq_true.mpr fun p hp => ?_
    have := mem_zip_self _ p hp
    simp [PipelineResourcesCompatible, this]
  have hs : (d.ImmutableSamplers.zip d.ImmutableSamplers).all
      (fun p => ImmutableSamplersCompatible p.1 p.2) = true := by
    refine List.all_eq_true.mpr fun p hp => ?_
    have := mem_zip_self _ p hp
    simp [ImmutableSamplersCompatible, this]
  simp [PipelineResourceSignaturesCompatible, hz, hs]

/-- Claim C7: signature construction is a deterministic function of the
description, so two signatures built from identical descriptions are
compatible; in particular every built signature is compatible with
itself. -/
theorem isCompatibleWith_reflexive_deterministic
    (d : PipelineResourceSignatureDesc) :
    IsCompatibleWith (mkSignature d) (mkSignature d) = true := by
  simp [IsCompatibleWith, signaturesCompatible_refl, List.all_eq_true,
    resourcesCompatible_refl]

/-- Counterexample to claim C1 as stated: two signatures built from empty
descriptions that differ only in the binding index have equal hashes
(both zero), equal per-binding-range slot totals and no resources at
all, so all conditions of the claim hold vacuously, yet IsCompatibleWith
returns false because the description-compatibility check rejects the
differing binding indices. -/
theorem isCompatibleWith_claim_counterexample :
    IsCompatibleWith (mkSignature emptyDescA) (mkSignature emptyDescB) = false
    ∧ (mkSignature emptyDescA).Hash = (mkSignature emptyDescB).Hash
    ∧ (mkSignature emptyDescA).BindingCount = (mkSignature emptyDescB).BindingCount
    ∧ (mkSignature emptyDescA).Attribs = []
    ∧ (mkSignature emptyDescB).Attribs = []
    ∧ ∀ r, r < emptyDescA.Resources.length →
        ResourcesCompatible
          ((mkSignature emptyDescA).Attribs.getD r dummyResourceAttribs)
          ((mkSignature emptyDescB).Attribs.getD r dummyResourceAttribs) = true := by
  decide

/-- Claim C1 amended: IsCompatibleWith returns true exactly when the
hashes agree, the per-binding-range slot totals agree, the descriptions
are compatible, and at every resource index the cache offset and the
immutable-sampler-assigned flag agree; the sampler index itself is
excluded. -/
theorem isCompatibleWith_characterization
    (d1 d2 : PipelineResourceSignatureDesc) :
    IsCompatibleWith (mkSignature d1) (mkSignature d2) = true ↔
      ((mkSignature d1).Hash = (mkSignature d2).Hash
       ∧ (mkSignature d1).BindingCount = (mkSignature d2).BindingCount
       ∧ PipelineResourceSignaturesCompatible d1 d2 = true
       ∧ ∀ r, r < d1.Resources.length →
           ResourcesCompatible
             ((mkSignature d1).Attribs.getD r dummyResourceAttribs)
             ((mkSignature d2).Attribs.getD r dummyResourceAttribs) = true) := by
  have hdesc : ∀ d, (mkSignature d).Desc = d := fun _ => rfl
  simp only [IsCompatibleWith, Bool.and_eq_true, decide_eq_true_iff,
    List.all_eq_true, List.mem_range, hdesc]
  tauto

/-- The zero binding counter reads zero in every range. -/
theorem tbindings_get_zero (R : BINDING_RANGE) :
    (⟨0, 0, 0, 0⟩ : TBindings).get R = 0 := by
  cases R <;> rfl

/-- Reading a counter after increasing one: the increased range gains the
amount, every other valid range is unchanged. -/
theorem tbindings_get_add (b : TBindings) (R : BINDING_RANGE) (n : Nat)
    (Q : BINDING_RANGE) (h : Q ≠ BINDING_RANGE.Unknown) :
    (b.add R n).get Q = b.get Q + if R = Q then n else 0 := by
  cases R <;> cases Q <;> simp_all [TBindings.add, TBindings.get]

/-- CreateLayoutAux produces one attribute per resource. -/
theorem createLayoutAux_length (d : PipelineResourceSignatureDesc)
    (l : List PipelineResourceDesc) :
    ∀ bc sc, (CreateLayoutAux d l bc sc).1.length = l.length := by
  induction l with
  | nil => intro bc sc; rfl
  | cons r rest ih =>
    intro bc sc
    by_cases h : r.ResourceType = SHADER_RESOURCE_TYPE.Sampler <;>
      simp [CreateLayoutAux, h, ih]

/-- The final binding counter of CreateLayoutAux in every valid range is
the incoming counter plus the array sizes of the matching non-sampler
resources. -/
theorem createLayoutAux_bindingCount (d : PipelineResourceSignatureDesc)
    (R : BINDING_RANGE) (hR : R ≠ BINDING_RANGE.Unknown)
    (l : List PipelineResourceDesc) :
    ∀ bc sc, ((CreateLayoutAux d l bc sc).2.1).get R =
      bc.get R + sizeOfRangeIn l R := by
  induction l with
  | nil => intro bc sc; simp [CreateLayoutAux, sizeOfRangeIn]
  | cons r rest ih =>
    intro bc sc
    by_cases h : r.ResourceType = SHADER_RESOURCE_TYPE.Sampler
    · simp [CreateLayoutAux, h, ih, sizeOfRangeIn]
    · simp only [CreateLayoutAux, h, if_neg, ite_false, if_false]
      rw [ih]
      rw [tbindings_get_add _ _ _ _ hR]
      simp only [sizeOfRangeIn, h]
      by_cases hr : PipelineResourceToBindingRange r = R
      · simp [hr, h]; omega
      · simp [hr, h]

/-- The final static counter of CreateLayoutAux in every valid range is
the incoming counter plus the array sizes of the matching static
non-sampler resources. -/
theorem createLayoutAux_staticCount (d : PipelineResourceSignatureDesc)
    (R : BINDING_RANGE) (hR : R ≠ BINDING_RANGE.Unknown)
    (l : List PipelineResourceDesc) :
    ∀ bc sc, ((CreateLayoutAux d l bc sc).2.2).get R =
      sc.get R + staticSizeOfRangeIn l R := by
  induction l with
  | nil => intro bc sc; simp [CreateLayoutAux, staticSizeOfRangeIn]
  | cons r rest ih =>
    intro bc sc
    by_cases h : r.ResourceType = SHADER_RESOURCE_TYPE.Sampler
    · simp [CreateLayoutAux, h, ih, staticSizeOfRangeIn]
    · simp only [CreateLayoutAux, h, ite_false, if_false]
      rw [ih]
      by_cases hv : r.VarType = SHADER_RESOURCE_VARIABLE_TYPE.Static
      · rw [if_pos hv, tbindings_get_add _ _ _ _ hR]
        simp only [staticSizeOfRangeIn, h, hv]
        by_cases hr : PipelineResourceToBindingRange r = R
        · simp [hr, h, hv]; omega
        · simp [hr, h, hv]
      · rw [if_neg hv]
        simp only [staticSizeOfRangeIn, h, hv]
        by_cases hr : PipelineResourceToBindingRange r = R
        · simp [hr, h, hv]
        · simp [hr, h, hv]

/-- Per-range size of a concatenation. -/
theorem sizeOfRangeIn_append (l1 l2 : List PipelineResourceDesc)
    (R : BINDING_RANGE) :
    sizeOfRangeIn (l1 ++ l2) R = sizeOfRangeIn l1 R + sizeOfRangeIn l2 R := by
  induction l1 with
  | nil => simp [sizeOfRangeIn]
  | cons r rest ih => simp [sizeOfRangeIn, ih]; omega

/-- Extending a prefix by one resource adds its contribution to the
per-range size. -/
theorem sizeOfRangeIn_take_succ (l : List PipelineResourceDesc) (i : Nat)
    (hi : i < l.length) (R : BINDING_RANGE) :
    sizeOfRangeIn (l.take (i + 1)) R = sizeOfRangeIn (l.take i) R +
      (if (l.getD i dummyResourceDesc).ResourceType ≠ SHADER_RESOURCE_TYPE.Sampler ∧
          PipelineResourceToBindingRange (l.getD i dummyResourceDesc) = R
        then (l.getD i dummyResourceDesc).ArraySize else 0) := by
  rw [List.take_succ, sizeOfRangeIn_append]
  have : l[i]? = some l[i] := List.getElem?_eq_getElem hi
  rw [this]
  rw [List.getD_eq_getElem l dummyResourceDesc hi]
  simp [sizeOfRangeIn]

/-- Per-range sizes of prefixes are monotone in the prefix length. -/
theorem sizeOfRangeIn_take_le (l : List PipelineResourceDesc)
    (R : BINDING_RANGE) (a b : Nat) (hab : a ≤ b) :
    sizeOfRangeIn (l.take a) R ≤ sizeOfRangeIn (l.take b) R := by
  induction b with
  | zero => simp_all
  | succ n ih =>
    rcases Nat.lt_or_ge a (n + 1) with hlt | hge
    · have ha : a ≤ n := Nat.lt_succ_iff.mp hlt
      refine (ih ha).trans ?_
      by_cases hn : n < l.length
      · rw [sizeOfRangeIn_take_succ l n hn R]; omega
      · rw [List.take_of_length_le (Nat.le_of_not_lt hn),
          List.take_of_length_le (Nat.le_of_lt (Nat.lt_succ_of_le (Nat.le_of_not_lt hn)))]
    · have : a = n + 1 := Nat.le_antisymm hab hge
      rw [this]

/-- A valid non-sampler resource always classifies into one of the four
real binding ranges. -/
theorem bindingRange_ne_unknown (r : PipelineResourceDesc)
    (h1 : r.ResourceType ≠ SHADER_RESOURCE_TYPE.Sampler)
    (h2 : r.ResourceType ≠ SHADER_RESOURCE_TYPE.AccelStruct)
    (h3 : r.ResourceType ≠ SHADER_RESOURCE_TYPE.Unknown) :
    PipelineResourceToBindingRange r ≠ BINDING_RANGE.Unknown := by
  unfold PipelineResourceToBindingRange
  cases htype : r.ResourceType <;> simp_all <;> split <;> simp

/-- The attribute assigned by CreateLayoutAux to the resource at a given
index: a standalone sampler receives no cache offset, only the
immutable-sampler association; every other resource whose binding range
is valid receives the incoming counter of its range plus the sizes of
the matching resources before it. -/
theorem createLayoutAux_attrib (d : PipelineResourceSignatureDesc)
    (l : List PipelineResourceDesc) :
    ∀ bc sc i, i < l.length →
      (((l.getD i dummyResourceDesc).ResourceType = SHADER_RESOURCE_TYPE.Sampler →
        (CreateLayoutAux d l bc sc).1.getD i dummyResourceAttribs =
          ⟨none,
           FindImmutableSampler d.ImmutableSamplers
             (l.getD i dummyResourceDesc).ShaderStages
             (l.getD i dummyResourceDesc).Name (glSamplerSuffix d),
           (FindImmutableSampler d.ImmutableSamplers
             (l.getD i dummyResourceDesc).ShaderStages
             (l.getD i dummyResourceDesc).Name (glSamplerSuffix d)).isSome⟩)
       ∧ ((l.getD i dummyResourceDesc).ResourceType ≠ SHADER_RESOURCE_TYPE.Sampler →
          PipelineResourceToBindingRange (l.getD i dummyResourceDesc) ≠
            BINDING_RANGE.Unknown →
        ((CreateLayoutAux d l bc sc).1.getD i dummyResourceAttribs).CacheOffset =
          some (bc.get (PipelineResourceToBindingRange (l.getD i dummyResourceDesc)) +
            sizeOfRangeIn (l.take i)
              (PipelineResourceToBindingRange (l.getD i dummyResourceDesc))))) := by
  induction l with
  | nil => intro bc sc i hi; cases hi
  | cons r rest ih =>
    intro bc sc i hi
    cases i with
    | zero =>
      constructor
      · intro hs
        rw [List.getD_cons_zero] at hs ⊢
        simp [CreateLayoutAux, hs, List.getD_cons_zero]
      · intro hs hru
        rw [List.getD_cons_zero] at hs hru ⊢
        simp [CreateLayoutAux, hs, List.getD_cons_zero, sizeOfRangeIn]
    | succ j =>
      have hj : j < rest.length := by simpa using hi
      constructor
      · intro hs
        rw [List.getD_cons_succ] at hs ⊢
        by_cases h : r.ResourceType = SHADER_RESOURCE_TYPE.Sampler
        · simp only [CreateLayoutAux, h, if_pos, ite_true, List.getD_cons_succ]
          exact (ih bc sc j hj).1 hs
        · simp only [CreateLayoutAux, h, ite_false, List.getD_cons_succ]
          exact (ih _ _ j hj).1 hs
      · intro hs hru
        rw [List.getD_cons_succ] at hs hru ⊢
        by_cases h : r.ResourceType = SHADER_RESOURCE_TYPE.Sampler
        · simp only [CreateLayoutAux, h, ite_true, List.getD_cons_succ,
            List.take_succ_cons]
          rw [(ih bc sc j hj).2 hs hru]
          simp only [sizeOfRangeIn, h]
          simp
        · simp only [CreateLayoutAux, h, ite_false, List.getD_cons_succ,
            List.take_succ_cons]
          rw [(ih _ _ j hj).2 hs hru]
          rw [tbindings_get_add _ _ _ _ hru]
          simp only [sizeOfRangeIn, h]
          simp only [ne_eq, h, not_false_iff, true_and]
          rw [Nat.add_assoc]

/-- Claim C2: layout creation processes resources in declaration order: a
standalone sampler receives no cache slot and only the immutable-sampler
association is recorded; every other resource receives a cache offset
equal to the running counter of its binding range, which is the sum of
the array sizes of the earlier non-sampler resources of the same range,
so offsets within one range grow contiguously by at least one array
size; every range total equals the sum of the array sizes of its
resources and the static-only counter sums the static non-sampler
resources; in the scenario with one static uniform buffer of size one
and one dynamic texture of size four the totals are one and four and the
static total is one. -/
theorem createLayout_slot_assignment_spec (d : PipelineResourceSignatureDesc)
    (hvalid : ∀ r ∈ d.Resources,
      r.ResourceType ≠ SHADER_RESOURCE_TYPE.AccelStruct ∧
        r.ResourceType ≠ SHADER_RESOURCE_TYPE.Unknown) :
    (mkSignature d).Attribs.length = d.Resources.length
    ∧ (∀ i, i < d.Resources.length →
        (((d.Resources.getD i dummyResourceDesc).ResourceType =
            SHADER_RESOURCE_TYPE.Sampler →
          (mkSignature d).Attribs.getD i dummyResourceAttribs =
            ⟨none,
             FindImmutableSampler d.ImmutableSamplers
               (d.Resources.getD i dummyResourceDesc).ShaderStages
               (d.Resources.getD i dummyResourceDesc).Name (glSamplerSuffix d),
             (FindImmutableSampler d.ImmutableSamplers
               (d.Resources.getD i dummyResourceDesc).ShaderStages
               (d.Resources.getD i dummyResourceDesc).Name
               (glSamplerSuffix d)).isSome⟩)
         ∧ ((d.Resources.getD i dummyResourceDesc).ResourceType ≠
              SHADER_RESOURCE_TYPE.Sampler →
            ((mkSignature d).Attribs.getD i dummyResourceAttribs).CacheOffset =
              some (sizeOfRangeIn (d.Resources.take i)
                (PipelineResourceToBindingRange
                  (d.Resources.getD i dummyResourceDesc))))))
    ∧ (∀ R, R ≠ BINDING_RANGE.Unknown →
        (mkSignature d).BindingCount.get R = sizeOfRangeIn d.Resources R
        ∧ (mkSignature d).StaticCount.get R = staticSizeOfRangeIn d.Resources R)
    ∧ (∀ i j, i < j → j < d.Resources.length →
        (d.Resources.getD i dummyResourceDesc).ResourceType ≠
          SHADER_RESOURCE_TYPE.Sampler →
        (d.Resources.getD j dummyResourceDesc).ResourceType ≠
          SHADER_RESOURCE_TYPE.Sampler →
        PipelineResourceToBindingRange (d.Resources.getD i dummyResourceDesc) =
          PipelineResourceToBindingRange (d.Resources.getD j dummyResourceDesc) →
        ((mkSignature d).Attribs.getD i dummyResourceAttribs).CacheOffset.getD 0 +
            (d.Resources.getD i dummyResourceDesc).ArraySize ≤
          ((mkSignature d).Attribs.getD j dummyResourceAttribs).CacheOffset.getD 0)
    ∧ ((mkSignature scenarioDesc).BindingCount = ⟨1, 4, 0, 0⟩
       ∧ (mkSignature scenarioDesc).StaticCount = ⟨1, 0, 0, 0⟩) := by
  have hA : (mkSignature d).Attribs =
      (CreateLayoutAux d d.Resources ⟨0, 0, 0, 0⟩ ⟨0, 0, 0, 0⟩).1 := rfl
  have hmemD : ∀ i, i < d.Resources.length →
      d.Resources.getD i dummyResourceDesc ∈ d.Resources := by
    intro i hi
    rw [List.getD_eq_getElem _ _ hi]
    exact List.getElem_mem hi
  have hru : ∀ i, (hi : i < d.Resources.length) →
      (d.Resources.getD i dummyResourceDesc).ResourceType ≠
        SHADER_RESOURCE_TYPE.Sampler →
      PipelineResourceToBindingRange (d.Resources.getD i dummyResourceDesc) ≠
        BINDING_RANGE.Unknown := by
    intro i hi hs
    exact bindingRange_ne_unknown _ hs (hvalid _ (hmemD i hi)).1
      (hvalid _ (hmemD i hi)).2
  have hoffset : ∀ i, (hi : i < d.Resources.length) →
      (d.Resources.getD i dummyResourceDesc).ResourceType ≠
        SHADER_RESOURCE_TYPE.Sampler →
      ((mkSignature d).Attribs.getD i dummyResourceAttribs).CacheOffset =
        some (sizeOfRangeIn (d.Resources.take i)
          (PipelineResourceToBindingRange (d.Resources.getD i dummyResourceDesc))) := by
    intro i hi hs
    rw [hA]
    have := (createLayoutAux_attrib d d.Resources ⟨0, 0, 0, 0⟩ ⟨0, 0, 0, 0⟩ i hi).2
      hs (hru i hi hs)
    rw [this, tbindings_get_zero, Nat.zero_add]
  refine ⟨?_, ?_, ?_, ?_, by decide, by decide⟩
  · rw [hA]; exact createLayoutAux_length d d.Resources _ _
  · intro i hi
    refine ⟨?_, hoffset i hi⟩
    intro hs
    rw [hA]
    exact (createLayoutAux_attrib d d.Resources ⟨0, 0, 0, 0⟩ ⟨0, 0, 0, 0⟩ i hi).1 hs
  · intro R hR
    constructor
    · have : (mkSignature d).BindingCount =
          (CreateLayoutAux d d.Resources ⟨0, 0, 0, 0⟩ ⟨0, 0, 0, 0⟩).2.1 := rfl
      rw [this, createLayoutAux_bindingCount d R hR d.Resources _ _,
        tbindings_get_zero, Nat.zero_add]
    · have : (mkSignature d).StaticCount =
          (CreateLayoutAux d d.Resources ⟨0, 0, 0, 0⟩ ⟨0, 0, 0, 0⟩).2.2 := rfl
      rw [this, createLayoutAux_staticCount d R hR d.Resources _ _,
        tbindings_get_zero, Nat.zero_add]
  · intro i j hij hj his hjs hrange
    have hi : i < d.Resources.length := Nat.lt_trans hij hj
    rw [hoffset i hi his, hoffset j hj hjs, ← hrange]
    simp only [Option.getD_some]
    have hstep := sizeOfRangeIn_take_succ d.Resources i hi
      (PipelineResourceToBindingRange (d.Resources.getD i dummyResourceDesc))
    rw [if_pos ⟨his, rfl⟩] at hstep
    rw [← hstep]
    exact sizeOfRangeIn_take_le d.Resources _ (i + 1) j hij

/-- Witness for the layout-creation claim at the scenario description:
the dynamic texture at index one receives the offset given by the prefix
sum and the texture-range slot total is the range size. -/
theorem createLayout_slot_assignment_witness :
    (mkSignature scenarioDesc).Attribs.length = scenarioDesc.Resources.length
    ∧ ((mkSignature scenarioDesc).Attribs.getD 1 dummyResourceAttribs).CacheOffset =
        some (sizeOfRangeIn (scenarioDesc.Resources.take 1)
          (PipelineResourceToBindingRange
            (scenarioDesc.Resources.getD 1 dummyResourceDesc)))
    ∧ (mkSignature scenarioDesc).BindingCount.get BINDING_RANGE.Texture =
        sizeOfRangeIn scenarioDesc.Resources BINDING_RANGE.Texture :=
  have h := createLayout_slot_assignment_spec scenarioDesc (by decide)
  ⟨h.1, (h.2.1 1 (by decide)).2 (by decide),
    (h.2.2.1 BINDING_RANGE.Texture (by decide)).1⟩

/-- Field agreement is reflexive. -/
theorem fieldsAgree_refl (a : SPIRVShaderResourceAttribs) : FieldsAgree a a :=
  ⟨rfl, rfl, rfl, rfl⟩

/-- Field agreement is symmetric. -/
theorem fieldsAgree_symm {a b : SPIRVShaderResourceAttribs}
    (h : FieldsAgree a b) : FieldsAgree b a :=
  ⟨h.1.symm, h.2.1.symm, h.2.2.1.symm, h.2.2.2.symm⟩

/-- Field agreement is transitive. -/
theorem fieldsAgree_trans {a b c : SPIRVShaderResourceAttribs}
    (h1 : FieldsAgree a b) (h2 : FieldsAgree b c) : FieldsAgree a c :=
  ⟨h1.1.trans h2.1, h1.2.1.trans h2.2.1, h1.2.2.1.trans h2.2.2.1,
    h1.2.2.2.trans h2.2.2.2⟩

/-- A successful merge verification means the two declarations agree on
the four compared properties. -/
theorem verifyResourceMerge_ok {e n : SPIRVShaderResourceAttribs} {u : Unit}
    (h : VerifyResourceMerge e n = .ok u) : FieldsAgree e n := by
  unfold VerifyResourceMerge at h
  split_ifs at h with h1 h2 h3 h4
  all_goals first
    | exact Except.noConfusion h
    | exact ⟨not_not.mp h1, not_not.mp h2, not_not.mp h3, not_not.mp h4⟩

/-- Case analysis of one successful resource-processing step: either the
key was already seen, the stored declaration agrees with the new one and
the state is unchanged, or the key is fresh, the array size is nonzero
and the resource is appended both to the seen set and to the merged
list. -/
theorem processResource_ok {layout : PipelineResourceLayoutDesc} {t : Nat}
    {uc : Bool} {sfx : String} {st : MergeState}
    {a : SPIRVShaderResourceAttribs} {st2 : MergeState}
    (h : processResource layout t uc sfx st a = .ok st2) :
    (∃ s0, st.seen.find?
        (fun s => decide (s.1 = resolvedKey layout t uc sfx a)) = some s0
      ∧ FieldsAgree s0.2 a ∧ st2 = st) ∨
    (st.seen.find?
        (fun s => decide (s.1 = resolvedKey layout t uc sfx a)) = none
      ∧ a.ArraySize ≠ 0
      ∧ st2.seen = st.seen ++ [(resolvedKey layout t uc sfx a, a)]
      ∧ st2.resources = st.resources ++ [toMergedDesc layout t uc sfx a]
      ∧ st2.suffix = st.suffix) := by
  unfold processResource at h
  cases hf : st.seen.find?
      (fun s => decide (s.1 = resolvedKey layout t uc sfx a)) with
  | some s0 =>
    rw [hf] at h
    have h2 : (match VerifyResourceMerge s0.2 a with
        | Except.error e => (Except.error e : Except DefSignError MergeState)
        | Except.ok _ => Except.ok st) = Except.ok st2 := h
    cases hv : VerifyResourceMerge s0.2 a with
    | error e => rw [hv] at h2; exact Except.noConfusion h2
    | ok u =>
      rw [hv] at h2
      exact Or.inl ⟨s0, rfl, verifyResourceMerge_ok hv, (Except.ok.inj h2).symm⟩
  | none =>
    rw [hf] at h
    have h2 : (if a.ArraySize = 0 then
          (Except.error (DefSignError.RuntimeArray a.Name) :
            Except DefSignError MergeState)
        else Except.ok
          { seen := st.seen ++ [(resolvedKey layout t uc sfx a, a)],
            resources := st.resources ++ [toMergedDesc layout t uc sfx a],
            suffix := st.suffix }) = Except.ok st2 := h
    by_cases ha : a.ArraySize = 0
    · rw [if_pos ha] at h2; exact Except.noConfusion h2
    · rw [if_neg ha] at h2
      have h3 := (Except.ok.inj h2)
      exact Or.inr ⟨rfl, ha, by rw [← h3], by rw [← h3], by rw [← h3]⟩

/-- A successful suffix merge leaves the seen set and the merged resource
list unchanged. -/
theorem mergeSuffix_ok {sh : ShaderInfo} {st st2 : MergeState}
    (h : mergeSuffix sh st = .ok st2) :
    st2.seen = st.seen ∧ st2.resources = st.resources := by
  unfold mergeSuffix at h
  split_ifs at h with h1
  · cases hs : st.suffix with
    | some s =>
      rw [hs] at h
      simp only at h
      by_cases he : s = sh.CombinedSamplerSuffix
      · rw [if_pos he] at h
        rw [← Except.ok.inj h]
        exact ⟨rfl, rfl⟩
      · rw [if_neg he] at h; exact Except.noConfusion h
    | none =>
      rw [hs] at h
      simp only at h
      rw [← Except.ok.inj h]
      exact ⟨rfl, rfl⟩
  · rw [← Except.ok.inj h]
    exact ⟨rfl, rfl⟩

/-- Splitting a successful processing of a resource list into its first
step and the rest. -/
theorem processResources_cons_ok {layout : PipelineResourceLayoutDesc}
    {t : Nat} {uc : Bool} {sfx : String} {st : MergeState}
    {a : SPIRVShaderResourceAttribs} {rest : List SPIRVShaderResourceAttribs}
    {st2 : MergeState}
    (h : processResources layout t uc sfx st (a :: rest) = .ok st2) :
    ∃ st1, processResource layout t uc sfx st a = .ok st1 ∧
      processResources layout t uc sfx st1 rest = .ok st2 := by
  unfold processResources at h
  cases hp : processResource layout t uc sfx st a with
  | error e => rw [hp] at h; exact Except.noConfusion h
  | ok st1 => rw [hp] at h; exact ⟨st1, rfl, h⟩

/-- Splitting a successful processing of a shader list into the first
shader (its resources, then its suffix) and the rest. -/
theorem processShaders_cons_ok {layout : PipelineResourceLayoutDesc}
    {st : MergeState} {t : Nat} {sh : ShaderInfo}
    {rest : List (Nat × ShaderInfo)} {st2 : MergeState}
    (h : processShaders layout st ((t, sh) :: rest) = .ok st2) :
    ∃ st1 st3, processResources layout t sh.UsingCombinedSamplers
        sh.CombinedSamplerSuffix st sh.Resources = .ok st1 ∧
      mergeSuffix sh st1 = .ok st3 ∧
      processShaders layout st3 rest = .ok st2 := by
  unfold processShaders at h
  cases hp : processResources layout t sh.UsingCombinedSamplers
      sh.CombinedSamplerSuffix st sh.Resources with
  | error e => rw [hp] at h; exact Except.noConfusion h
  | ok st1 =>
    rw [hp] at h
    have h2 : (match mergeSuffix sh st1 with
        | Except.error e => (Except.error e : Except DefSignError MergeState)
        | Except.ok st3 => processShaders layout st3 rest) = Except.ok st2 := h
    cases hm : mergeSuffix sh st1 with
    | error e => rw [hm] at h2; exact Except.noConfusion h2
    | ok st3 =>
      rw [hm] at h2
      exact ⟨st1, st3, rfl, hm, h2⟩

/-- Processing a resource list only appends to the seen set. -/
theorem processResources_seen_mono {layout : PipelineResourceLayoutDesc}
    {t : Nat} {uc : Bool} {sfx : String} :
    ∀ {l : List SPIRVShaderResourceAttribs} {st st2 : MergeState},
      processResources layout t uc sfx st l = .ok st2 →
      ∃ ext, st2.seen = st.seen ++ ext := by
  intro l
  induction l with
  | nil =>
    intro st st2 h
    exact ⟨[], by rw [← Except.ok.inj h]; simp⟩
  | cons a rest ih =>
    intro st st2 h
    obtain ⟨st1, hp, hrest⟩ := processResources_cons_ok h
    obtain ⟨ext1, hext1⟩ := ih hrest
    rcases processResource_ok hp with ⟨s0, _, _, hst⟩ | ⟨_, _, hseen, _, _⟩
    · exact ⟨ext1, by rw [hext1, hst]⟩
    · exact ⟨[(resolvedKey layout t uc sfx a, a)] ++ ext1,
        by rw [hext1, hseen, List.append_assoc]⟩

/-- Processing a resource list preserves distinctness of the seen keys. -/
theorem processResources_nodup {layout : PipelineResourceLayoutDesc}
    {t : Nat} {uc : Bool} {sfx : String} :
    ∀ {l : List SPIRVShaderResourceAttribs} {st st2 : MergeState},
      processResources layout t uc sfx st l = .ok st2 →
      (st.seen.map (fun s => s.1)).Nodup →
      (st2.seen.map (fun s => s.1)).Nodup := by
  intro l
  induction l with
  | nil =>
    intro st st2 h hnd
    rw [← Except.ok.inj h]
    exact hnd
  | cons a rest ih =>
    intro st st2 h hnd
    obtain ⟨st1, hp, hrest⟩ := processResources_cons_ok h
    rcases processResource_ok hp with ⟨s0, _, _, hst⟩ | ⟨hf, _, hseen, _, _⟩
    · exact ih hrest (by rw [hst]; exact hnd)
    · refine ih hrest ?_
      rw [hseen, List.map_append]
      refine List.Nodup.append hnd (List.nodup_singleton _) ?_
      intro x hx hx2
      simp only [List.map_cons, List.map_nil, List.mem_singleton] at hx2
      rcases List.mem_map.mp hx with ⟨s, hsmem, hs1⟩
      have hne : s.1 ≠ resolvedKey layout t uc sfx a := by
        simpa using List.find?_eq_none.mp hf s hsmem
      rw [← hs1] at hx2
      exact hne hx2

/-- Processing a resource list preserves nonzero array sizes of the seen
declarations. -/
theorem processResources_sizes {layout : PipelineResourceLayoutDesc}
    {t : Nat} {uc : Bool} {sfx : String} :
    ∀ {l : List SPIRVShaderResourceAttribs} {st st2 : MergeState},
      processResources layout t uc sfx st l = .ok st2 →
      (∀ s ∈ st.seen, s.2.ArraySize ≠ 0) →
      ∀ s ∈ st2.seen, s.2.ArraySize ≠ 0 := by
  intro l
  induction l with
  | nil =>
    intro st st2 h hsz
    rw [← Except.ok.inj h]
    exact hsz
  | cons a rest ih =>
    intro st st2 h hsz
    obtain ⟨st1, hp, hrest⟩ := processResources_cons_ok h
    rcases processResource_ok hp with ⟨s0, _, _, hst⟩ | ⟨_, ha, hseen, _, _⟩
    · exact ih hrest (by rw [hst]; exact hsz)
    · refine ih hrest ?_
      intro s hs
      rw [hseen] at hs
      rcases List.mem_append.mp hs with hs | hs
      · exact hsz s hs
      · rw [List.mem_singleton.mp hs]
        exact ha

/-- Every processed resource agrees with any already-seen declaration of
its key. -/
theorem processResources_agree_pre {layout : PipelineResourceLayoutDesc}
    {t : Nat} {uc : Bool} {sfx : String} :
    ∀ {l : List SPIRVShaderResourceAttribs} {st st2 : MergeState},
      processResources layout t uc sfx st l = .ok st2 →
      (st.seen.map (fun s => s.1)).Nodup →
      ∀ a ∈ l, ∀ s ∈ st.seen, s.1 = resolvedKey layout t uc sfx a →
        FieldsAgree s.2 a := by
  intro l
  induction l with
  | nil =>
    intro st st2 _ _ a ha
    cases ha
  | cons x rest ih =>
    intro st st2 h hnd a ha s hs hkey
    obtain ⟨st1, hp, hrest⟩ := processResources_cons_ok h
    rcases List.mem_cons.mp ha with rfl | ha
    · rcases processResource_ok hp with ⟨s0, hf, hagree, _⟩ | ⟨hf, _, _, _, _⟩
      · have hs0mem := List.mem_of_find?_eq_some hf
        have hs0key : s0.1 = resolvedKey layout t uc sfx a := by
          simpa using List.find?_some hf
        have : s = s0 := List.inj_on_of_nodup_map hnd hs hs0mem
          (by rw [hkey, hs0key])
        rw [this]
        exact hagree
      · exact absurd hkey (by simpa using List.find?_eq_none.mp hf s hs)
    · rcases processResource_ok hp with ⟨s0, _, _, hst⟩ | ⟨hf, _, hseen, _, _⟩
      · exact ih hrest (by rw [hst]; exact hnd) a ha s (by rw [hst]; exact hs) hkey
      · refine ih hrest ?_ a ha s ?_ hkey
        · rw [hseen, List.map_append]
          refine List.Nodup.append hnd (List.nodup_singleton _) ?_
          intro y hy hy2
          simp only [List.map_cons, List.map_nil, List.mem_singleton] at hy2
          rcases List.mem_map.mp hy with ⟨s1, hs1mem, hs11⟩
          have hne : s1.1 ≠ resolvedKey layout t uc sfx x := by
            simpa using List.find?_eq_none.mp hf s1 hs1mem
          rw [← hs11] at hy2
          exact hne hy2
        · rw [hseen]
          exact List.mem_append_left _ hs

/-- Every processed resource ends with an agreeing entry of its key in
the final seen set. -/
theorem processResources_found {layout : PipelineResourceLayoutDesc}
    {t : Nat} {uc : Bool} {sfx : String} :
    ∀ {l : List SPIRVShaderResourceAttribs} {st st2 : MergeState},
      processResources layout t uc sfx st l = .ok st2 →
      ∀ a ∈ l, ∃ s, s ∈ st2.seen ∧ s.1 = resolvedKey layout t uc sfx a ∧
        FieldsAgree s.2 a := by
  intro l
  induction l with
  | nil =>
    intro st st2 _ a ha
    cases ha
  | cons x rest ih =>
    intro st st2 h a ha
    obtain ⟨st1, hp, hrest⟩ := processResources_cons_ok h
    rcases List.mem_cons.mp ha with rfl | ha
    · obtain ⟨ext, hext⟩ := processResources_seen_mono hrest
      rcases processResource_ok hp with ⟨s0, hf, hagree, hst⟩ | ⟨_, _, hseen, _, _⟩
      · have hs0mem := List.mem_of_find?_eq_some hf
        have hs0key : s0.1 = resolvedKey layout t uc sfx a := by
          simpa using List.find?_some hf
        refine ⟨s0, ?_, hs0key, hagree⟩
        rw [hext, hst]
        exact List.mem_append_left _ hs0mem
      · refine ⟨(resolvedKey layout t uc sfx a, a), ?_, rfl, fieldsAgree_refl a⟩
        rw [hext, hseen]
        exact List.mem_append_left _ (List.mem_append_right _ (List.mem_singleton.mpr rfl))
    · exact ih hrest a ha

/-- Any two processed resources with the same resolved key agree on the
four merged properties. -/
theorem processResources_pairwise {layout : PipelineResourceLayoutDesc}
    {t : Nat} {uc : Bool} {sfx : String} :
    ∀ {l : List SPIRVShaderResourceAttribs} {st st2 : MergeState},
      processResources layout t uc sfx st l = .ok st2 →
      (st.seen.map (fun s => s.1)).Nodup →
      ∀ a ∈ l, ∀ b ∈ l,
        resolvedKey layout t uc sfx a = resolvedKey layout t uc sfx b →
        FieldsAgree a b := by
  intro l
  induction l with
  | nil =>
    intro st st2 _ _ a ha
    cases ha
  | cons x rest ih =>
    intro st st2 h hnd a ha b hb hkey
    obtain ⟨st1, hp, hrest⟩ := processResources_cons_ok h
    have hnd1 : (st1.seen.map (fun s => s.1)).Nodup := by
      rcases processResource_ok hp with ⟨s0, _, _, hst⟩ | ⟨hf, _, hseen, _, _⟩
      · rw [hst]; exact hnd
      · rw [hseen, List.map_append]
        refine List.Nodup.append hnd (List.nodup_singleton _) ?_
        intro y hy hy2
        simp only [List.map_cons, List.map_nil, List.mem_singleton] at hy2
        rcases List.mem_map.mp hy with ⟨s1, hs1mem, hs11⟩
        have hne : s1.1 ≠ resolvedKey layout t uc sfx x := by
          simpa using List.find?_eq_none.mp hf s1 hs1mem
        rw [← hs11] at hy2
        exact hne hy2
    have hhead : ∀ c ∈ rest,
        resolvedKey layout t uc sfx x = resolvedKey layout t uc sfx c →
        FieldsAgree x c := by
      intro c hc hkc
      rcases processResource_ok hp with ⟨s0, hf, hagree, hst⟩ | ⟨hf, _, hseen, _, _⟩
      · have hs0key : s0.1 = resolvedKey layout t uc sfx x := by
          simpa using List.find?_some hf
        have hc2 := processResources_agree_pre hrest hnd1 c hc s0
          (by rw [hst]; exact List.mem_of_find?_eq_some hf)
          (by rw [hs0key, hkc])
        exact fieldsAgree_trans (fieldsAgree_symm hagree) hc2
      · exact processResources_agree_pre hrest hnd1 c hc
          (resolvedKey layout t uc sfx x, x)
          (by rw [hseen]; exact List.mem_append_right _ (List.mem_singleton.mpr rfl))
          hkc
    rcases List.mem_cons.mp ha with ha1 | ha1 <;>
      rcases List.mem_cons.mp hb with hb1 | hb1
    · rw [ha1, hb1]; exact fieldsAgree_refl x
    · rw [ha1]
      refine hhead b hb1 ?_
      rw [← ha1]
      exact hkey
    · rw [hb1]
      refine fieldsAgree_symm (hhead a ha1 ?_)
      rw [← hb1]
      exact hkey.symm
    · exact ih hrest hnd1 a ha1 b hb1 hkey

/-- Processing keeps the merged resource keys aligned with the seen
keys. -/
theorem processResources_reskeys {layout : PipelineResourceLayoutDesc}
    {t : Nat} {uc : Bool} {sfx : String} :
    ∀ {l : List SPIRVShaderResourceAttribs} {st st2 : MergeState},
      processResources layout t uc sfx st l = .ok st2 →
      st.resources.map descKey = st.seen.map (fun s => s.1) →
      st2.resources.map descKey = st2.seen.map (fun s => s.1) := by
  intro l
  induction l with
  | nil =>
    intro st st2 h hk
    rw [← Except.ok.inj h]
    exact hk
  | cons a rest ih =>
    intro st st2 h hk
    obtain ⟨st1, hp, hrest⟩ := processResources_cons_ok h
    rcases processResource_ok hp with ⟨s0, _, _, hst⟩ | ⟨_, _, hseen, hres, _⟩
    · exact ih hrest (by rw [hst]; exact hk)
    · refine ih hrest ?_
      rw [hseen, hres, List.map_append, List.map_append, hk]
      rfl

/-- Every merged resource comes from one of the processed declarations
(or was present before). -/
theorem processResources_prov {layout : PipelineResourceLayoutDesc}
    {t : Nat} {uc : Bool} {sfx : String} :
    ∀ {l : List SPIRVShaderResourceAttribs} {st st2 : MergeState},
      processResources layout t uc sfx st l = .ok st2 →
      ∀ o ∈ st2.resources, o ∈ st.resources ∨
        ∃ a ∈ l, o = toMergedDesc layout t uc sfx a := by
  intro l
  induction l with
  | nil =>
    intro st st2 h o ho
    rw [← Except.ok.inj h] at ho
    exact Or.inl ho
  | cons a rest ih =>
    intro st st2 h o ho
    obtain ⟨st1, hp, hrest⟩ := processResources_cons_ok h
    rcases processResource_ok hp with ⟨s0, _, _, hst⟩ | ⟨_, _, _, hres, _⟩
    · rcases ih hrest o ho with ho2 | ⟨b, hb, hob⟩
      · rw [hst] at ho2
        exact Or.inl ho2
      · exact Or.inr ⟨b, List.mem_cons_of_mem _ hb, hob⟩
    · rcases ih hrest o ho with ho2 | ⟨b, hb, hob⟩
      · rw [hres] at ho2
        rcases List.mem_append.mp ho2 with ho3 | ho3
        · exact Or.inl ho3
        · exact Or.inr ⟨a, List.mem_cons_self a rest, List.mem_singleton.mp ho3⟩
      · exact Or.inr ⟨b, List.mem_cons_of_mem _ hb, hob⟩

/-- Membership of the flattened reflected-resource list of a stage list
decomposes into the head shader and the rest. -/
theorem flatAttribs_cons (t : Nat) (sh : ShaderInfo)
    (rest : List (Nat × ShaderInfo)) :
    flatAttribs ((t, sh) :: rest) =
      (sh.Resources.map fun a =>
        (t, sh.UsingCombinedSamplers, sh.CombinedSamplerSuffix, a)) ++
        flatAttribs rest := by
  simp [flatAttribs]

/-- Processing a shader list only appends to the seen set. -/
theorem processShaders_seen_mono {layout : PipelineResourceLayoutDesc} :
    ∀ {stages : List (Nat × ShaderInfo)} {st st2 : MergeState},
      processShaders layout st stages = .ok st2 →
      ∃ ext, st2.seen = st.seen ++ ext := by
  intro stages
  induction stages with
  | nil =>
    intro st st2 h
    exact ⟨[], by rw [← Except.ok.inj h]; simp⟩
  | cons p rest ih =>
    intro st st2 h
    obtain ⟨t, sh⟩ := p
    obtain ⟨st1, st3, hp, hm, hrest⟩ := processShaders_cons_ok h
    obtain ⟨ext1, hext1⟩ := processResources_seen_mono hp
    obtain ⟨ext2, hext2⟩ := ih hrest
    exact ⟨ext1 ++ ext2,
      by rw [hext2, (mergeSuffix_ok hm).1, hext1, List.append_assoc]⟩

/-- Processing a shader list preserves distinctness of the seen keys. -/
theorem processShaders_nodup {layout : PipelineResourceLayoutDesc} :
    ∀ {stages : List (Nat × ShaderInfo)} {st st2 : MergeState},
      processShaders layout st stages = .ok st2 →
      (st.seen.map (fun s => s.1)).Nodup →
      (st2.seen.map (fun s => s.1)).Nodup := by
  intro stages
  induction stages with
  | nil =>
    intro st st2 h hnd
    rw [← Except.ok.inj h]
    exact hnd
  | cons p rest ih =>
    intro st st2 h hnd
    obtain ⟨t, sh⟩ := p
    obtain ⟨st1, st3, hp, hm, hrest⟩ := processShaders_cons_ok h
    refine ih hrest ?_
    rw [(mergeSuffix_ok hm).1]
    exact processResources_nodup hp hnd

/-- Processing a shader list preserves nonzero array sizes of the seen
declarations. -/
theorem processShaders_sizes {layout : PipelineResourceLayoutDesc} :
    ∀ {stages : List (Nat × ShaderInfo)} {st st2 : MergeState},
      processShaders layout st stages = .ok st2 →
      (∀ s ∈ st.seen, s.2.ArraySize ≠ 0) →
      ∀ s ∈ st2.seen, s.2.ArraySize ≠ 0 := by
  intro stages
  induction stages with
  | nil =>
    intro st st2 h hsz
    rw [← Except.ok.inj h]
    exact hsz
  | cons p rest ih =>
    intro st st2 h hsz
    obtain ⟨t, sh⟩ := p
    obtain ⟨st1, st3, hp, hm, hrest⟩ := processShaders_cons_ok h
    refine ih hrest ?_
    intro s hs
    rw [(mergeSuffix_ok hm).1] at hs
    exact processResources_sizes hp hsz s hs

/-- Every reflected resource of a processed shader list agrees with any
already-seen declaration of its key. -/
theorem processShaders_agree_pre {layout : PipelineResourceLayoutDesc} :
    ∀ {stages : List (Nat × ShaderInfo)} {st st2 : MergeState},
      processShaders layout st stages = .ok st2 →
      (st.seen.map (fun s => s.1)).Nodup →
      ∀ x ∈ flatAttribs stages, ∀ s ∈ st.seen, s.1 = itemKey layout x →
        FieldsAgree s.2 (itemAttr x) := by
  intro stages
  induction stages with
  | nil =>
    intro st st2 _ _ x hx
    simp [flatAttribs] at hx
  | cons p rest ih =>
    intro st st2 h hnd x hx s hs hkey
    obtain ⟨t, sh⟩ := p
    obtain ⟨st1, st3, hp, hm, hrest⟩ := processShaders_cons_ok h
    rw [flatAttribs_cons] at hx
    rcases List.mem_append.mp hx with hx1 | hx1
    · rcases List.mem_map.mp hx1 with ⟨a, ha, rfl⟩
      exact processResources_agree_pre hp hnd a ha s hs hkey
    · obtain ⟨ext1, hext1⟩ := processResources_seen_mono hp
      refine ih hrest ?_ x hx1 s ?_ hkey
      · rw [(mergeSuffix_ok hm).1]
        exact processResources_nodup hp hnd
      · rw [(mergeSuffix_ok hm).1, hext1]
        exact List.mem_append_left _ hs

/-- Every reflected resource of a processed shader list ends with an
agreeing entry of its key in the final seen set. -/
theorem processShaders_found {layout : PipelineResourceLayoutDesc} :
    ∀ {stages : List (Nat × ShaderInfo)} {st st2 : MergeState},
      processShaders layout st stages = .ok st2 →
      ∀ x ∈ flatAttribs stages, ∃ s, s ∈ st2.seen ∧ s.1 = itemKey layout x ∧
        FieldsAgree s.2 (itemAttr x) := by
  intro stages
  induction stages with
  | nil =>
    intro st st2 _ x hx
    simp [flatAttribs] at hx
  | cons p rest ih =>
    intro st st2 h x hx
    obtain ⟨t, sh⟩ := p
    obtain ⟨st1, st3, hp, hm, hrest⟩ := processShaders_cons_ok h
    rw [flatAttribs_cons] at hx
    rcases List.mem_append.mp hx with hx1 | hx1
    · rcases List.mem_map.mp hx1 with ⟨a, ha, rfl⟩
      obtain ⟨s, hsmem, hskey, hsagree⟩ := processResources_found hp a ha
      obtain ⟨ext2, hext2⟩ := processShaders_seen_mono hrest
      refine ⟨s, ?_, hskey, hsagree⟩
      rw [hext2, (mergeSuffix_ok hm).1]
      exact List.mem_append_left _ hsmem
    · exact ih hrest x hx1

/-- Any two reflected resources of a processed shader list with the same
resolved key agree on the four merged properties. -/
theorem processShaders_pairwise {layout : PipelineResourceLayoutDesc} :
    ∀ {stages : List (Nat × ShaderInfo)} {st st2 : MergeState},
      processShaders layout st stages = .ok st2 →
      (st.seen.map (fun s => s.1)).Nodup →
      ∀ x ∈ flatAttribs stages, ∀ y ∈ flatAttribs stages,
        itemKey layout x = itemKey layout y →
        FieldsAgree (itemAttr x) (itemAttr y) := by
  intro stages
  induction stages with
  | nil =>
    intro st st2 _ _ x hx
    simp [flatAttribs] at hx
  | cons p rest ih =>
    intro st st2 h hnd x hx y hy hkey
    obtain ⟨t, sh⟩ := p
    obtain ⟨st1, st3, hp, hm, hrest⟩ := processShaders_cons_ok h
    have hnd3 : (st3.seen.map (fun s => s.1)).Nodup := by
      rw [(mergeSuffix_ok hm).1]
      exact processResources_nodup hp hnd
    have hhead : ∀ a ∈ sh.Resources, ∀ z ∈ flatAttribs rest,
        resolvedKey layout t sh.UsingCombinedSamplers sh.CombinedSamplerSuffix a =
          itemKey layout z →
        FieldsAgree a (itemAttr z) := by
      intro a ha z hz hkz
      obtain ⟨s, hsmem, hskey, hsagree⟩ := processResources_found hp a ha
      have hz2 := processShaders_agree_pre hrest hnd3 z hz s
        (by rw [(mergeSuffix_ok hm).1]; exact hsmem)
        (by rw [hskey]; exact hkz)
      exact fieldsAgree_trans (fieldsAgree_symm hsagree) hz2
    rw [flatAttribs_cons] at hx hy
    rcases List.mem_append.mp hx with hx1 | hx1 <;>
      rcases List.mem_append.mp hy with hy1 | hy1
    · rcases List.mem_map.mp hx1 with ⟨a, ha, rfl⟩
      rcases List.mem_map.mp hy1 with ⟨b, hb, rfl⟩
      exact processResources_pairwise hp hnd a ha b hb hkey
    · rcases List.mem_map.mp hx1 with ⟨a, ha, rfl⟩
      exact hhead a ha y hy1 hkey
    · rcases List.mem_map.mp hy1 with ⟨b, hb, rfl⟩
      exact fieldsAgree_symm (hhead b hb x hx1 hkey.symm)
    · exact ih hrest hnd3 x hx1 y hy1 hkey

/-- Processing a shader list keeps the merged resource keys aligned with
the seen keys. -/
theorem processShaders_reskeys {layout : PipelineResourceLayoutDesc} :
    ∀ {stages : List (Nat × ShaderInfo)} {st st2 : MergeState},
      processShaders layout st stages = .ok st2 →
      st.resources.map descKey = st.seen.map (fun s => s.1) →
      st2.resources.map descKey = st2.seen.map (fun s => s.1) := by
  intro stages
  induction stages with
  | nil =>
    intro st st2 h hk
    rw [← Except.ok.inj h]
    exact hk
  | cons p rest ih =>
    intro st st2 h hk
    obtain ⟨t, sh⟩ := p
    obtain ⟨st1, st3, hp, hm, hrest⟩ := processShaders_cons_ok h
    refine ih hrest ?_
    rw [(mergeSuffix_ok hm).1, (mergeSuffix_ok hm).2]
    exact processResources_reskeys hp hk

/-- Every merged resource of a processed shader list comes from one of
the reflected declarations. -/
theorem processShaders_prov {layout : PipelineResourceLayoutDesc} :
    ∀ {stages : List (Nat × ShaderInfo)} {st st2 : MergeState},
      processShaders layout st stages = .ok st2 →
      ∀ o ∈ st2.resources, o ∈ st.resources ∨
        ∃ x ∈ flatAttribs stages, o = itemDesc layout x := by
  intro stages
  induction stages with
  | nil =>
    intro st st2 h o ho
    rw [← Except.ok.inj h] at ho
    exact Or.inl ho
  | cons p rest ih =>
    intro st st2 h o ho
    obtain ⟨t, sh⟩ := p
    obtain ⟨st1, st3, hp, hm, hrest⟩ := processShaders_cons_ok h
    rcases ih hrest o ho with ho2 | ⟨x, hx, hox⟩
    · rw [(mergeSuffix_ok hm).2] at ho2
      rcases processResources_prov hp o ho2 with ho3 | ⟨a, ha, hoa⟩
      · exact Or.inl ho3
      · refine Or.inr ⟨(t, sh.UsingCombinedSamplers, sh.CombinedSamplerSuffix, a),
          ?_, hoa⟩
        rw [flatAttribs_cons]
        exact List.mem_append_left _ (List.mem_map.mpr ⟨a, ha, rfl⟩)
    · refine Or.inr ⟨x, ?_, hox⟩
      rw [flatAttribs_cons]
      exact List.mem_append_right _ hx

/-- Claim C4: default-signature derivation merges reflected resources
shared across stages (same name and same resolved stage mask) into a
single entry whose attributes come from one of the identical
declarations: on success the merged keys are distinct, every reflected
resource is represented, every merged resource stems from a reflected
declaration, and all same-key declarations agree on kind, dimension,
array size and multisample state; in the scenario two stages declaring
g_Tex identically merge into one resource, while an array size of two in
one stage yields the array-size merge-conflict error. -/
theorem default_signature_merge_spec :
    (∀ (layout : PipelineResourceLayoutDesc)
        (stages : List (Nat × ShaderInfo)) (st2 : MergeState),
      CreateDefaultSignature layout stages = .ok st2 →
        ((st2.resources.map descKey).Nodup
         ∧ (∀ x ∈ flatAttribs stages,
              itemKey layout x ∈ st2.resources.map descKey)
         ∧ (∀ o ∈ st2.resources, ∃ x ∈ flatAttribs stages,
              o = itemDesc layout x)
         ∧ (∀ x ∈ flatAttribs stages, ∀ y ∈ flatAttribs stages,
              itemKey layout x = itemKey layout y →
              FieldsAgree (itemAttr x) (itemAttr y))))
    ∧ CreateDefaultSignature mergeScenarioLayout mergeScenarioStages =
        .ok ⟨[(("g_Tex", 3), gTexAttribs)],
          [⟨"g_Tex", 3, 1, .TextureSRV, .Mutable, PIPELINE_RESOURCE_FLAG_UNKNOWN⟩],
          none⟩
    ∧ CreateDefaultSignature mergeScenarioLayout mergeConflictStages =
        .error (.MergeConflict "g_Tex" "array size") := by
  refine ⟨?_, by rfl, by rfl⟩
  intro layout stages st2 h
  unfold CreateDefaultSignature at h
  have hnd0 : ((initMergeState.seen).map (fun s => s.1)).Nodup := by
    simp [initMergeState]
  have hkeys : st2.resources.map descKey = st2.seen.map (fun s => s.1) :=
    processShaders_reskeys h rfl
  refine ⟨?_, ?_, ?_, ?_⟩
  · rw [hkeys]
    exact processShaders_nodup h hnd0
  · intro x hx
    obtain ⟨s, hsmem, hskey, _⟩ := processShaders_found h x hx
    rw [hkeys]
    exact List.mem_map.mpr ⟨s, hsmem, hskey⟩
  · intro o ho
    rcases processShaders_prov h o ho with h1 | h2
    · simp [initMergeState] at h1
    · exact h2
  · exact fun x hx y hy hk => processShaders_pairwise h hnd0 x hx y hy hk

/-- Witness for the merge claim: the scenario succeeds and the theorem
yields the distinctness of the merged keys of its result. -/
theorem default_signature_merge_witness :
    CreateDefaultSignature mergeScenarioLayout mergeScenarioStages =
      .ok ⟨[(("g_Tex", 3), gTexAttribs)],
        [⟨"g_Tex", 3, 1, .TextureSRV, .Mutable, PIPELINE_RESOURCE_FLAG_UNKNOWN⟩],
        none⟩
    ∧ (([⟨"g_Tex", 3, 1, .TextureSRV, .Mutable, PIPELINE_RESOURCE_FLAG_UNKNOWN⟩] :
        List PipelineResourceDesc).map descKey).Nodup :=
  have hok : CreateDefaultSignature mergeScenarioLayout mergeScenarioStages =
      .ok ⟨[(("g_Tex", 3), gTexAttribs)],
        [⟨"g_Tex", 3, 1, .TextureSRV, .Mutable, PIPELINE_RESOURCE_FLAG_UNKNOWN⟩],
        none⟩ := rfl
  ⟨hok, (default_signature_merge_spec.1 mergeScenarioLayout
    mergeScenarioStages _ hok).1⟩

/-- Claim C5: if any reflected shader resource has array size zero (a
runtime-sized array), default-signature derivation never succeeds. -/
theorem default_signature_rejects_runtime_sized_arrays
    (layout : PipelineResourceLayoutDesc) (stages : List (Nat × ShaderInfo))
    (h : ∃ x ∈ flatAttribs stages, (itemAttr x).ArraySize = 0) :
    ∀ st2, CreateDefaultSignature layout stages ≠ .ok st2 := by
  intro st2 hok
  obtain ⟨x, hx, hx0⟩ := h
  unfold CreateDefaultSignature at hok
  obtain ⟨s, hsmem, _, hsagree⟩ := processShaders_found hok x hx
  have hsz := processShaders_sizes hok (by simp [initMergeState]) s hsmem
  exact hsz (hsagree.2.2.1.trans hx0)

/-- Witness for the runtime-sized-array claim at the concrete scenario
with one unsized resource. -/
theorem default_signature_rejects_runtime_sized_arrays_witness :
    (∃ x ∈ flatAttribs runtimeArrayStages, (itemAttr x).ArraySize = 0)
    ∧ CreateDefaultSignature mergeScenarioLayout runtimeArrayStages ≠
        .ok initMergeState :=
  ⟨by decide, default_signature_rejects_runtime_sized_arrays
    mergeScenarioLayout runtimeArrayStages (by decide) initMergeState⟩

/-- Claim C6: for every reflected resource that resolves, the pipeline
layout builder overwrites exactly the word at its binding-decoration
offset (with the binding index) and the word at its
descriptor-set-decoration offset (with the first descriptor-set index
plus the descriptor set); every word at any other offset keeps its
original value, and the buffer length is unchanged.  The decoration
offsets are assumed pairwise distinct and in bounds, as they are for
well-formed SPIR-V. -/
theorem initPipelineLayout_patches_two_words
    (resolve : String → Option (Nat × Nat × Nat)) :
    ∀ (rs : List SPIRVShaderResourceAttribs) (spirv out : List Nat),
      PatchSpirvWords resolve rs spirv = .ok out →
      (decorationOffsets rs).Nodup →
      (∀ o ∈ decorationOffsets rs, o < spirv.length) →
      (out.length = spirv.length
       ∧ (∀ a ∈ rs, ∃ b f ds, resolve a.Name = some (b, f, ds)
           ∧ out[a.BindingDecorationOffset]? = some b
           ∧ out[a.DescriptorSetDecorationOffset]? = some (f + ds))
       ∧ ∀ k, k ∉ decorationOffsets rs → out[k]? = spirv[k]?) := by
  intro rs
  induction rs with
  | nil =>
    intro spirv out hok _ _
    have hout : spirv = out := Except.ok.inj hok
    refine ⟨hout ▸ rfl, fun a ha => absurd ha (List.not_mem_nil a), fun k _ => ?_⟩
    rw [hout]
  | cons a rest ih =>
    intro spirv out hok hnd hbound
    have hoffs : decorationOffsets (a :: rest) =
        a.BindingDecorationOffset :: a.DescriptorSetDecorationOffset ::
          decorationOffsets rest := by
      simp [decorationOffsets]
    rw [hoffs] at hnd hbound
    obtain ⟨hbo_nmem, hnd2⟩ := List.nodup_cons.mp hnd
    obtain ⟨hso_nmem, hnd3⟩ := List.nodup_cons.mp hnd2
    have hbo_ne_so : a.BindingDecorationOffset ≠
        a.DescriptorSetDecorationOffset :=
      fun he => hbo_nmem (he ▸ List.mem_cons_self _ _)
    have hbo_nrest : a.BindingDecorationOffset ∉ decorationOffsets rest :=
      fun hc => hbo_nmem (List.mem_cons_of_mem _ hc)
    have hbo_lt : a.BindingDecorationOffset < spirv.length :=
      hbound _ (List.mem_cons_self _ _)
    have hso_lt : a.DescriptorSetDecorationOffset < spirv.length :=
      hbound _ (List.mem_cons_of_mem _ (List.mem_cons_self _ _))
    unfold PatchSpirvWords at hok
    cases hr : resolve a.Name with
    | none => rw [hr] at hok; exact Except.noConfusion hok
    | some v =>
      obtain ⟨b, fs, ds⟩ := v
      rw [hr] at hok
      have hok2 : PatchSpirvWords resolve rest
          ((spirv.set a.BindingDecorationOffset b).set
            a.DescriptorSetDecorationOffset (fs + ds)) = .ok out := hok
      have hlen2 : ((spirv.set a.BindingDecorationOffset b).set
          a.DescriptorSetDecorationOffset (fs + ds)).length = spirv.length := by
        simp [List.length_set]
      have hbound2 : ∀ o ∈ decorationOffsets rest,
          o < ((spirv.set a.BindingDecorationOffset b).set
            a.DescriptorSetDecorationOffset (fs + ds)).length := by
        intro o hoin
        rw [hlen2]
        exact hbound o (List.mem_cons_of_mem _ (List.mem_cons_of_mem _ hoin))
      obtain ⟨ihlen, ihres, ihunc⟩ := ih _ out hok2 hnd3 hbound2
      refine ⟨ihlen.trans hlen2, ?_, ?_⟩
      · intro c hc
        rcases List.mem_cons.mp hc with hc1 | hc1
        · rw [hc1]
          refine ⟨b, fs, ds, hr, ?_, ?_⟩
          · rw [ihunc _ hbo_nrest,
              List.getElem?_set_ne hbo_ne_so.symm,
              List.getElem?_set_self hbo_lt]
          · rw [ihunc _ hso_nmem,
              List.getElem?_set_self (by rw [List.length_set]; exact hso_lt)]
        · exact ihres c hc1
      · intro k hk
        have hk1 : k ≠ a.BindingDecorationOffset := fun he =>
          hk (he ▸ List.mem_cons_self _ _)
        have hk2 : k ≠ a.DescriptorSetDecorationOffset := fun he =>
          hk (he ▸ List.mem_cons_of_mem _ (List.mem_cons_self _ _))
        have hk3 : k ∉ decorationOffsets rest := fun hc =>
          hk (List.mem_cons_of_mem _ (List.mem_cons_of_mem _ hc))
        rw [ihunc k hk3, List.getElem?_set_ne (Ne.symm hk2),
          List.getElem?_set_ne (Ne.symm hk1)]

/-- Witness for the byte-code patching claim at a concrete six-word
buffer: the two decoration words take the resolved values and word zero
is untouched. -/
theorem initPipelineLayout_patches_two_words_witness :
    PatchSpirvWords patchWitnessResolve patchWitnessAttribs patchWitnessSpirv =
      .ok [100, 101, 102, 7, 104, 3]
    ∧ ([100, 101, 102, 7, 104, 3] : List Nat).length = patchWitnessSpirv.length
    ∧ ([100, 101, 102, 7, 104, 3] : List Nat)[0]? = patchWitnessSpirv[0]? :=
  have h := initPipelineLayout_patches_two_words patchWitnessResolve
    patchWitnessAttribs patchWitnessSpirv [100, 101, 102, 7, 104, 3]
    (by rfl) (by decide) (by decide)
  ⟨by rfl, h.1, h.2.2 0 (by decide)⟩

end Diligent

